import Mathlib

/-!
# Verification of the Pinniped Impersonation Proxy Controller specification

This development shallowly embeds the reconciliation engine of the
impersonation proxy controller (package `impersonatorconfig`) and proves or
refutes the frozen claims about it.

The controller implementation file itself is not part of the provided
sources; only its unit-test file (`src/unnamed/part_000`, package
`impersonatorconfig`) is.  The definitions below are therefore modelled from
the specification (`spec.md` §3, §4, §7, §8), with every behaviour that the
in-repository test file pins down (action order, exact status strategies,
error messages, certificate fields) taken from those tests, which are
authoritative source code of the repository.
-/

namespace ImpersonatorConfig

/-- Split a character list at every occurrence of a separator.  The result
always has one group more than the number of separators. -/
def splitChar (sep : Char) : List Char → List (List Char)
  | [] => [[]]
  | c :: rest =>
    match splitChar sep rest with
    | [] => [[c]]
    | g :: gs => if c = sep then [] :: g :: gs else (c :: g) :: gs

/-- Value of a string of decimal digits. -/
def decimalVal (l : List Char) : Nat :=
  l.foldl (fun a c => a * 10 + (c.toNat - 48)) 0

/-- Modelled from the spec: a host string "parses as an IP address"
(Go `net.ParseIP`).  Dotted-quad IPv4: four groups of 1-3 digits, each ≤ 255. -/
def isIPv4 (s : String) : Bool :=
  let parts := splitChar '.' s.toList
  decide (parts.length = 4) && parts.all (fun p =>
    decide (0 < p.length) && decide (p.length ≤ 3) && p.all Char.isDigit &&
      decide (decimalVal p ≤ 255))

/-- A hexadecimal digit character. -/
def isHexChar (c : Char) : Bool :=
  c.isDigit || (decide ('a' ≤ c) && decide (c ≤ 'f')) ||
    (decide ('A' ≤ c) && decide (c ≤ 'F'))

/-- Modelled from the spec: IPv6 textual form (hex groups separated by
colons), as accepted by Go `net.ParseIP`. -/
def isIPv6 (s : String) : Bool :=
  s.toList.any (fun c => decide (c = ':')) &&
    s.toList.all (fun c => isHexChar c || decide (c = ':'))

/-- A host string parses as an IP address (v4 or v6). -/
def parseIP (s : String) : Bool :=
  isIPv4 s || isIPv6 s

/-- Host part of a `host:port` character sequence (Go `net.SplitHostPort`):
either a bracketed host followed by a colon and a port, or a single colon
separating a nonempty host from the port. -/
def hostPortChars : List Char → Option (List Char)
  | '[' :: rest =>
    match splitChar ']' rest with
    | [h, ':' :: _ :: _] => some h
    | _ => none
  | l =>
    match splitChar ':' l with
    | [[], _] => none
    | [h, _] => some h
    | _ => none

/-- Modelled from the spec: split a `host` or `host:port` endpoint into its
host part (Go `net.SplitHostPort`); bracketed IPv6 is accepted. -/
def splitHostPort (s : String) : Option String :=
  (hostPortChars s.toList).map String.mk

/-- Host part of an explicit external endpoint: accept `host:port` verbatim,
else retry with the default https port appended (matching the observed
error text `address [invalid:443: ...` in the tests). -/
def endpointHost (s : String) : Option String :=
  match splitHostPort s with
  | some h => some h
  | none => splitHostPort (s ++ ":443")

/-- Normalized impersonation proxy mode (spec §3, "CredentialIssuerSpec"). -/
inductive Mode where
  | auto
  | enabled
  | disabled
deriving DecidableEq

/-- Desired front-door service kind after validation (spec §3). -/
inductive ServiceKind where
  | noService
  | loadBalancer
  | clusterIP
deriving DecidableEq

/-- Raw `spec.impersonationProxy` block of the CredentialIssuer (spec §3). -/
structure ProxySpec where
  mode : String
  externalEndpoint : String
  svcType : String
  annots : List (String × String)
  loadBalancerIP : String
deriving DecidableEq

/-- One entry of `status.strategies` (spec §6, "Status surface").  The
frontend carries the advertised URL and the identity of the CA bundle. -/
structure Strategy where
  sType : String
  status : String
  reason : String
  message : String
  time : Int
  frontend : Option (String × Nat)
deriving DecidableEq

/-- The CredentialIssuer resource: its spec block and status strategies. -/
structure Issuer where
  spec : Option ProxySpec
  strategies : List Strategy
deriving DecidableEq

/-- Validated configuration (spec §4.1 output): resolved mode plus
normalized service and endpoint settings. -/
structure NormSpec where
  mode : Mode
  endpoint : String
  host : String
  kind : ServiceKind
  annots : List (String × String)
  lbIP : String
deriving DecidableEq

/-- Modelled from the spec (§4.1 ConfigLoader): validation of the
impersonation proxy spec block, with the exact error strings asserted by the
repository's tests. -/
def loadSpec : Option ProxySpec → Except String NormSpec
  | none => .error "could not load CredentialIssuer: spec.impersonationProxy is nil"
  | some p =>
    match (match p.mode with
      | "auto" => some Mode.auto
      | "enabled" => some Mode.enabled
      | "disabled" => some Mode.disabled
      | _ => none) with
    | none => .error ("could not load CredentialIssuer spec.impersonationProxy: invalid proxy mode \"" ++ p.mode ++ "\" (expected auto, disabled, or enabled)")
    | some md =>
      match (match p.svcType with
        | "" => some ServiceKind.loadBalancer
        | "LoadBalancer" => some ServiceKind.loadBalancer
        | "ClusterIP" => some ServiceKind.clusterIP
        | "None" => some ServiceKind.noService
        | _ => none) with
      | none => .error ("could not load CredentialIssuer spec.impersonationProxy: invalid service type \"" ++ p.svcType ++ "\" (expected None, LoadBalancer, or ClusterIP)")
      | some kind =>
        if decide (p.loadBalancerIP ≠ "") && !parseIP p.loadBalancerIP then
          .error ("could not load CredentialIssuer spec.impersonationProxy: invalid LoadBalancerIP \"" ++ p.loadBalancerIP ++ "\"")
        else if decide (p.externalEndpoint ≠ "") then
          match endpointHost p.externalEndpoint with
          | none => .error ("could not load CredentialIssuer spec.impersonationProxy: invalid ExternalEndpoint \"" ++ p.externalEndpoint ++ "\"")
          | some h =>
            .ok { mode := md, endpoint := p.externalEndpoint, host := h,
                  kind := kind, annots := p.annots, lbIP := p.loadBalancerIP }
        else if kind = ServiceKind.noService then
          .error "could not load CredentialIssuer spec.impersonationProxy: externalEndpoint must be set when service.type is None"
        else
          .ok { mode := md, endpoint := "", host := "",
                kind := kind, annots := p.annots, lbIP := p.loadBalancerIP }

/-- One load balancer ingress entry (spec §3, "Service state"). -/
structure Ingress where
  ip : String
  hostname : String
deriving DecidableEq

/-- A managed Service object.  `ingress` is populated for load balancers,
`clusterIPs` for ClusterIP services (dual-stack order preserved). -/
structure Service where
  annots : List (String × String)
  lbIP : String
  clusterIPs : List String
  ingress : List Ingress
deriving DecidableEq

/-- The persisted CA secret contents (spec §3, "CA state"): well-formedness
of `ca.crt`/`ca.key`, the key material identity, and certificate fields. -/
structure CASecretData where
  wellFormed : Bool
  matId : Nat
  cn : String
  notBeforeTime : Int
  notAfterTime : Int
deriving DecidableEq

/-- The TLS leaf secret contents (spec §3, "TLS leaf state"):
well-formedness flags, the id of the CA that signed it, and its SAN sets. -/
structure TLSData where
  hasData : Bool
  certParses : Bool
  keyOk : Bool
  caMatId : Nat
  dnsNames : List String
  ipSANs : List String
deriving DecidableEq

/-- The signing-key secret maintained by the sister controller (spec §3). -/
structure SignerData where
  certId : Nat
  keyId : Nat
  valid : Bool
deriving DecidableEq

/-- The watched/owned objects in the installation namespace. -/
structure KubeState where
  lbSvc : Option Service
  cipSvc : Option Service
  caSecret : Option CASecretData
  tlsSecret : Option TLSData
  signerSecret : Option SignerData
deriving DecidableEq

/-- The reconciler's environment: the API server contents (read-write), the
informer caches (read-only within a sync), the node inventory, and the
CredentialIssuer. -/
structure Env where
  api : KubeState
  informer : KubeState
  hasControlPlane : Bool
  noNodes : Bool
  issuer : Option Issuer
deriving DecidableEq

/-- Controller-internal state (spec §4.6, §5): proxy lifecycle flag, the
one-shot recorded unexpected-exit error, the two dynamic cert providers, a
fresh-key counter, and how many times the proxy factory ran. -/
structure CtrlState where
  running : Bool
  errSlot : Option String
  leafProvider : Option TLSData
  signerProvider : Option (Nat × Nat)
  freshCtr : Nat
  startCount : Nat
deriving DecidableEq

/-- Injected API failure modes, mirroring the test suite's reactors: `none`
means the call succeeds, `some msg` makes it fail with that message. -/
structure Failures where
  createSvcErr : Option String
  updateSvcErr : Option String
  deleteSvcErr : Option String
  createCaErr : Option String
  createTlsErr : Option String
  deleteTlsErr : Option String
  startProxyErr : Option String
  updateStatusErr : Option String
deriving DecidableEq

/-- All API calls succeed. -/
def noFailures : Failures :=
  { createSvcErr := none, updateSvcErr := none, deleteSvcErr := none,
    createCaErr := none, createTlsErr := none, deleteTlsErr := none,
    startProxyErr := none, updateStatusErr := none }

/-- Which managed service a write targets. -/
inductive SvcId where
  | lb
  | cip
deriving DecidableEq

/-- A write issued against the API server during one sync. -/
inductive Action where
  | createSvc (which : SvcId)
  | updateSvc (which : SvcId)
  | deleteSvc (which : SvcId)
  | createCaSecret
  | createTlsSecret
  | deleteTlsSecret
deriving DecidableEq

/-- Result of endpoint resolution (spec §4.3): a resolved endpoint together
with all hosts that must appear in the SAN set, still pending, or a load
balancer whose ingress entries are unusable. -/
inductive ResolveRes where
  | endpoint (url : String) (sanHosts : List String)
  | pending
  | invalid (msg : String)
deriving DecidableEq

/-- Modelled from the spec (§4.3 EndpointResolver): explicit endpoint wins;
else first load balancer ingress hostname, else first parseable ingress IP
(unusable nonempty entries are an error); else the ClusterIP service's
cluster IPs (all of them go into the SAN set); else pending. -/
def resolveEndpoint (s : NormSpec) (inf : KubeState) : ResolveRes :=
  if decide (s.endpoint ≠ "") then .endpoint s.endpoint [s.host]
  else
    match s.kind with
    | ServiceKind.loadBalancer =>
      match inf.lbSvc with
      | none => .pending
      | some svc =>
        match (svc.ingress.map Ingress.hostname).filter (fun h => decide (h ≠ "")) with
        | h :: _ => .endpoint h [h]
        | [] =>
          match (svc.ingress.map Ingress.ip).filter parseIP with
          | i :: _ => .endpoint i [i]
          | [] =>
            if svc.ingress.any (fun g => decide (g.ip ≠ "") || decide (g.hostname ≠ "")) then
              .invalid "could not find valid IP addresses or hostnames from load balancer some-namespace/some-service-resource-name"
            else .pending
    | ServiceKind.clusterIP =>
      match inf.cipSvc with
      | none => .pending
      | some svc =>
        match svc.clusterIPs with
        | [] => .pending
        | i :: _ => .endpoint i svc.clusterIPs
    | ServiceKind.noService => .pending

/-- The Service object the controller writes for the desired kind. -/
def desiredService (s : NormSpec) : Service :=
  { annots := s.annots, lbIP := s.lbIP, clusterIPs := [], ingress := [] }

/-- Delete the managed load balancer Service when the informer shows it. -/
def deleteLB (f : Failures) (inf api : KubeState) :
    KubeState × List Action × Option String :=
  match inf.lbSvc with
  | none => (api, [], none)
  | some _ =>
    match f.deleteSvcErr with
    | some m => (api, [Action.deleteSvc SvcId.lb], some m)
    | none => ({ api with lbSvc := none }, [Action.deleteSvc SvcId.lb], none)

/-- Delete the managed ClusterIP Service when the informer shows it. -/
def deleteCIP (f : Failures) (inf api : KubeState) :
    KubeState × List Action × Option String :=
  match inf.cipSvc with
  | none => (api, [], none)
  | some _ =>
    match f.deleteSvcErr with
    | some m => (api, [Action.deleteSvc SvcId.cip], some m)
    | none => ({ api with cipSvc := none }, [Action.deleteSvc SvcId.cip], none)

/-- Modelled from the spec (§4.2 ServiceManager): create the desired
service when absent, update it in place when annotations or the static load
balancer IP drift, delete services of an undesired kind.  Updates preserve
the externally owned status fields (ingress, assigned cluster IPs). -/
def ensureService (f : Failures) (s : NormSpec) (inf api : KubeState) :
    KubeState × List Action × Option String :=
  match s.kind with
  | ServiceKind.noService =>
    match deleteLB f inf api with
    | (a1, w1, some m) => (a1, w1, some m)
    | (a1, w1, none) =>
      match deleteCIP f inf a1 with
      | (a2, w2, r) => (a2, w1 ++ w2, r)
  | ServiceKind.loadBalancer =>
    match deleteCIP f inf api with
    | (a1, w1, some m) => (a1, w1, some m)
    | (a1, w1, none) =>
      match inf.lbSvc with
      | none =>
        match f.createSvcErr with
        | some m => (a1, w1 ++ [Action.createSvc SvcId.lb], some m)
        | none =>
          ({ a1 with lbSvc := some (desiredService s) },
            w1 ++ [Action.createSvc SvcId.lb], none)
      | some svc =>
        if svc.annots = s.annots ∧ svc.lbIP = s.lbIP then (a1, w1, none)
        else
          match f.updateSvcErr with
          | some m => (a1, w1 ++ [Action.updateSvc SvcId.lb], some m)
          | none =>
            ({ a1 with lbSvc := some { svc with annots := s.annots, lbIP := s.lbIP } },
              w1 ++ [Action.updateSvc SvcId.lb], none)
  | ServiceKind.clusterIP =>
    match deleteLB f inf api with
    | (a1, w1, some m) => (a1, w1, some m)
    | (a1, w1, none) =>
      match inf.cipSvc with
      | none =>
        match f.createSvcErr with
        | some m => (a1, w1 ++ [Action.createSvc SvcId.cip], some m)
        | none =>
          ({ a1 with cipSvc := some (desiredService s) },
            w1 ++ [Action.createSvc SvcId.cip], none)
      | some svc =>
        if svc.annots = s.annots ∧ svc.lbIP = s.lbIP then (a1, w1, none)
        else
          match f.updateSvcErr with
          | some m => (a1, w1 ++ [Action.updateSvc SvcId.cip], some m)
          | none =>
            ({ a1 with cipSvc := some { svc with annots := s.annots, lbIP := s.lbIP } },
              w1 ++ [Action.updateSvc SvcId.cip], none)

/-- Number of seconds in the ~100-year certificate lifetime used by the
controller (100 × 365 days, as asserted by the repository's tests). -/
def hundredYears : Int := 3153600000

/-- The CA certificate generated on a reconcile that finds no CA secret:
subject CN and validity window as asserted by `requireCASecretWasCreated`
in the repository's tests (not-before ten seconds in the past, not-after
one hundred 365-day years in the future). -/
def freshCA (c : CtrlState) (now : Int) : CASecretData :=
  { wellFormed := true, matId := c.freshCtr,
    cn := "Pinniped Impersonation Proxy CA",
    notBeforeTime := now - 10, notAfterTime := now + hundredYears }

/-- Modelled from the spec (§4.4 CAManager): reuse a well-formed persisted
CA; report `could not load CA` when present but unparseable (no automatic
deletion); generate and create a fresh CA when absent.  The generated
certificate's subject CN and validity window are the ones asserted by
`requireCASecretWasCreated` in the repository's tests. -/
def ensureCA (f : Failures) (inf api : KubeState) (c : CtrlState) (now : Int) :
    KubeState × CtrlState × List Action × Except String CASecretData :=
  match inf.caSecret with
  | some d =>
    if d.wellFormed then (api, c, [], .ok d)
    else (api, c, [], .error "could not load CA: tls: failed to find any PEM data in certificate input")
  | none =>
    match f.createCaErr with
    | some m => (api, c, [], .error m)
    | none =>
      ({ api with caSecret := some (freshCA c now) }, { c with freshCtr := c.freshCtr + 1 },
        [Action.createCaSecret], .ok (freshCA c now))

/-- DNS SANs required for the resolved hosts: those not parsing as IPs. -/
def expectedDNSNames (hosts : List String) : List String :=
  hosts.filter (fun h => !parseIP h)

/-- IP SANs required for the resolved hosts: those parsing as IPs. -/
def expectedIPSANs (hosts : List String) : List String :=
  hosts.filter parseIP

/-- The leaf certificate the controller issues for the resolved hosts,
signed by the given CA. -/
def newTLS (ca : CASecretData) (hosts : List String) : TLSData :=
  { hasData := true, certParses := true, keyOk := true, caMatId := ca.matId,
    dnsNames := expectedDNSNames hosts, ipSANs := expectedIPSANs hosts }

/-- A persisted TLS secret is acceptable (spec §4.5): well-formed, the key
matches, it is signed by the current CA, and its SAN sets are exactly the
expected ones. -/
def tlsValid (ca : CASecretData) (hosts : List String) (t : TLSData) : Bool :=
  t.hasData && t.certParses && t.keyOk && decide (t.caMatId = ca.matId) &&
    decide (t.dnsNames = expectedDNSNames hosts) &&
    decide (t.ipSANs = expectedIPSANs hosts)

/-- The error reported when deleting an unacceptable TLS secret fails,
prefixed by the reason the secret was rejected (messages from the tests). -/
def tlsDeleteFailureMsg (t : TLSData) (m : String) : String :=
  if !t.hasData then
    "found missing or not PEM-encoded data in TLS Secret, but got error while deleting it: " ++ m
  else if !t.certParses then
    "PEM data represented an invalid cert, but got error while deleting it: " ++ m
  else if !t.keyOk then
    "cert had an invalid private key, but got error while deleting it: " ++ m
  else m

/-- Issue and store a fresh leaf certificate for the resolved hosts. -/
def createTLS (f : Failures) (ca : CASecretData) (hosts : List String)
    (api : KubeState) : KubeState × List Action × Except String TLSData :=
  match f.createTlsErr with
  | some m => (api, [], .error m)
  | none =>
    ({ api with tlsSecret := some (newTLS ca hosts) }, [Action.createTlsSecret],
      .ok (newTLS ca hosts))

/-- Modelled from the spec (§4.5 TLSCertManager): keep an acceptable TLS
secret in place; otherwise delete it and recreate it for the current
endpoint under the current CA. -/
def ensureTLS (f : Failures) (ca : CASecretData) (hosts : List String)
    (inf api : KubeState) : KubeState × List Action × Except String TLSData :=
  match inf.tlsSecret with
  | none => createTLS f ca hosts api
  | some t =>
    if tlsValid ca hosts t then (api, [], .ok t)
    else
      match f.deleteTlsErr with
      | some m => (api, [Action.deleteTlsSecret], .error (tlsDeleteFailureMsg t m))
      | none =>
        match createTLS f ca hosts { api with tlsSecret := none } with
        | (a2, w2, r) => (a2, Action.deleteTlsSecret :: w2, r)

/-- Delete the TLS secret seen in the informer cache; an API-side not-found
is swallowed (the delete converges on absence either way). -/
def deleteStaleTLS (f : Failures) (inf api : KubeState) :
    KubeState × List Action × Option String :=
  match inf.tlsSecret with
  | none => (api, [], none)
  | some _ =>
    match f.deleteTlsErr with
    | some m => (api, [Action.deleteTlsSecret], some m)
    | none => ({ api with tlsSecret := none }, [Action.deleteTlsSecret], none)

/-- Modelled from the spec (§4.7 SignerLoader): read the sister
controller's signing-key secret, with the error messages from the tests. -/
def loadSigner (inf : KubeState) : Except String (Nat × Nat) :=
  match inf.signerSecret with
  | none => .error "could not load the impersonator's credential signing secret: secret \"some-ca-signer-name\" not found"
  | some sd =>
    if sd.valid then .ok (sd.certId, sd.keyId)
    else .error "could not load the impersonator's credential signing secret: attempt to set invalid key pair: tls: failed to find any PEM data in certificate input"

/-- The strategy type owned by this controller. -/
def impersonationProxyType : String := "ImpersonationProxy"

/-- The `Success/Listening` strategy with the advertised frontend. -/
def successStrategy (now : Int) (url : String) (caMat : Nat) : Strategy :=
  { sType := impersonationProxyType, status := "Success", reason := "Listening",
    message := "impersonation proxy is ready to accept client connections",
    time := now, frontend := some ("https://" ++ url, caMat) }

/-- The `Error/ErrorDuringSetup` strategy for a failed sync. -/
def errorStrategy (now : Int) (msg : String) : Strategy :=
  { sType := impersonationProxyType, status := "Error", reason := "ErrorDuringSetup",
    message := msg, time := now, frontend := none }

/-- The `Error/Pending` strategy while awaiting load balancer ingress. -/
def pendingStrategy (now : Int) : Strategy :=
  { sType := impersonationProxyType, status := "Error", reason := "Pending",
    message := "waiting for load balancer Service to be assigned IP or hostname",
    time := now, frontend := none }

/-- The `Error/Disabled` strategy; the message distinguishes manual
disabling from automatic disabling (texts from the tests). -/
def disabledStrategy (now : Int) (auto : Bool) : Strategy :=
  { sType := impersonationProxyType, status := "Error", reason := "Disabled",
    message :=
      if auto then "automatically determined that impersonation proxy should be disabled"
      else "impersonation proxy was explicitly disabled by configuration",
    time := now, frontend := none }

/-- Modelled from the spec (§4.9 StatusPublisher): replace the entry of our
type preserving order, append at the end when absent. -/
def mergeStrategies (ours : Strategy) (l : List Strategy) : List Strategy :=
  if l.any (fun s => decide (s.sType = impersonationProxyType)) then
    l.map (fun s => if s.sType = impersonationProxyType then ours else s)
  else l ++ [ours]

instance {α β : Type} [DecidableEq α] [DecidableEq β] : DecidableEq (Except α β) :=
fun x y =>
  match x, y with
  | .ok a, .ok b =>
    if h : a = b then isTrue (by rw [h]) else isFalse (fun hc => h (Except.ok.inj hc))
  | .error a, .error b =>
    if h : a = b then isTrue (by rw [h]) else isFalse (fun hc => h (Except.error.inj hc))
  | .ok _, .error _ => isFalse (fun hc => Except.noConfusion hc)
  | .error _, .ok _ => isFalse (fun hc => Except.noConfusion hc)

/-- Result of the body of one sync: new API contents, new controller
state, writes issued, and either the strategy to publish or an error. -/
structure DoRes where
  api : KubeState
  ctrl : CtrlState
  writes : List Action
  out : Except String Strategy
deriving DecidableEq

/-- Controller state after the teardown of a disabled configuration: proxy
stopped, exit slot drained, both providers cleared. -/
def stoppedCtrl (c : CtrlState) : CtrlState :=
  { c with running := false, errSlot := none,
           leafProvider := none, signerProvider := none }

/-- Controller state after `ensure(Running)` succeeds: a stopped proxy is
started through the factory, a running one is left alone. -/
def startedCtrl (c : CtrlState) : CtrlState :=
  if c.running then c else { c with running := true, startCount := c.startCount + 1 }

/-- The teardown run for a disabled configuration (spec §4.8 step 2):
delete the managed services and the TLS secret, stop the proxy, clear the
providers, and publish the `Disabled` strategy. -/
def runTeardown (f : Failures) (auto : Bool) (inf api : KubeState) (c : CtrlState)
    (now : Int) : DoRes :=
  match deleteLB f inf api with
  | (a1, w1, some m) => ⟨a1, stoppedCtrl c, w1, .error m⟩
  | (a1, w1, none) =>
    match deleteCIP f inf a1 with
    | (a2, w2, some m) => ⟨a2, stoppedCtrl c, w1 ++ w2, .error m⟩
    | (a2, w2, none) =>
      match deleteStaleTLS f inf a2 with
      | (a3, w3, some m) => ⟨a3, stoppedCtrl c, w1 ++ w2 ++ w3, .error m⟩
      | (a3, w3, none) =>
        ⟨a3, stoppedCtrl c, w1 ++ w2 ++ w3, .ok (disabledStrategy now auto)⟩

/-- The enabled-mode run after the proxy is up (spec §4.8 steps 3-9):
reconcile services, resolve the endpoint, ensure CA and TLS leaf (deleting
a stale leaf while pending), load the signer, and produce the strategy. -/
def runEnabled (f : Failures) (s : NormSpec) (inf api : KubeState) (c1 : CtrlState)
    (now : Int) : DoRes :=
  match ensureService f s inf api with
  | (a1, w1, some m) => ⟨a1, c1, w1, .error m⟩
  | (a1, w1, none) =>
    match resolveEndpoint s inf with
    | .invalid m =>
      ⟨a1, { c1 with leafProvider := none }, w1, .error m⟩
    | .pending =>
      match ensureCA f inf a1 c1 now with
      | (a2, c2, w2, .error m) => ⟨a2, c2, w1 ++ w2, .error m⟩
      | (a2, c2, w2, .ok _) =>
        match deleteStaleTLS f inf a2 with
        | (a3, w3, some m) =>
          ⟨a3, { c2 with leafProvider := none, signerProvider := none },
            w1 ++ w2 ++ w3, .error m⟩
        | (a3, w3, none) =>
          ⟨a3, { c2 with leafProvider := none, signerProvider := none },
            w1 ++ w2 ++ w3, .ok (pendingStrategy now)⟩
    | .endpoint url hosts =>
      match ensureCA f inf a1 c1 now with
      | (a2, c2, w2, .error m) => ⟨a2, c2, w1 ++ w2, .error m⟩
      | (a2, c2, w2, .ok ca) =>
        match ensureTLS f ca hosts inf a2 with
        | (a3, w3, .error m) =>
          ⟨a3, { c2 with leafProvider := none }, w1 ++ w2 ++ w3, .error m⟩
        | (a3, w3, .ok t) =>
          match loadSigner inf with
          | .error m =>
            ⟨a3, { c2 with leafProvider := some t, signerProvider := none },
              w1 ++ w2 ++ w3, .error m⟩
          | .ok pr =>
            ⟨a3, { c2 with leafProvider := some t, signerProvider := some pr },
              w1 ++ w2 ++ w3, .ok (successStrategy now url ca.matId)⟩

/-- Modelled from the spec (§4.8 Reconciler): the body of one sync, in the
order pinned by the repository's tests — load config, list nodes, tear down
when (auto-)disabled, report a recorded unexpected proxy exit once, start
the proxy, then the enabled-mode run. -/
def doSync (f : Failures) (e : Env) (c : CtrlState) (iss : Issuer) (now : Int) : DoRes :=
  match loadSpec iss.spec with
  | .error m => ⟨e.api, { c with running := false }, [], .error m⟩
  | .ok s =>
    if e.noNodes then ⟨e.api, c, [], .error "no nodes found"⟩
    else if s.mode = Mode.disabled ∨ (s.mode = Mode.auto ∧ e.hasControlPlane) then
      runTeardown f (decide (s.mode = Mode.auto)) e.informer e.api c now
    else
      match c.errSlot with
      | some m => ⟨e.api, { c with errSlot := none, running := false }, [], .error m⟩
      | none =>
        match (if c.running then none else f.startProxyErr) with
        | some m => ⟨e.api, c, [], .error m⟩
        | none => runEnabled f s e.informer e.api (startedCtrl c) now

/-- Result of a whole sync: updated environment (API contents and
CredentialIssuer status), controller state, the writes issued, the returned
error, and the strategy written to status (if one was written). -/
structure SyncResult where
  env : Env
  ctrl : CtrlState
  writes : List Action
  err : Option String
  published : Option Strategy
deriving DecidableEq

/-- Combine the sync error and the status-write error (Go
`utilerrors.NewAggregate`): one error is returned alone, two are joined in
brackets. -/
def aggregate : Option String → Option String → Option String
  | none, none => none
  | some a, none => some a
  | none, some b => some b
  | some a, some b => some ("[" ++ a ++ ", " ++ b ++ "]")

/-- Environment with new API contents and a new CredentialIssuer. -/
def setEnv (e : Env) (k : KubeState) (i : Option Issuer) : Env :=
  { api := k, informer := e.informer, hasControlPlane := e.hasControlPlane,
    noNodes := e.noNodes, issuer := i }

/-- Modelled from the spec (§4.8, §4.9, §7): one reconcile tick.  When the
CredentialIssuer is missing the sync returns a plain error and writes
nothing.  Otherwise the body runs; its error (if any) becomes an
`Error/ErrorDuringSetup` strategy and clears the signer provider; the
strategy is merged into the status strategies; a status-write failure is
combined with the body's error. -/
def sync (f : Failures) (e : Env) (c : CtrlState) (now : Int) : SyncResult :=
  match e.issuer with
  | none =>
    ⟨e, c, [],
      some "could not get CredentialIssuer to update: credentialissuer not found", none⟩
  | some iss =>
    match doSync f e c iss now with
    | ⟨api2, c2, w2, .ok st⟩ =>
      match f.updateStatusErr with
      | some m =>
        ⟨{ e with api := api2 }, c2, w2,
          some ("failed to update CredentialIssuer status: " ++ m), none⟩
      | none =>
        ⟨setEnv e api2 (some ⟨iss.spec, mergeStrategies st iss.strategies⟩),
          c2, w2, none, some st⟩
    | ⟨api2, c2, w2, .error m⟩ =>
      match f.updateStatusErr with
      | some mu =>
        ⟨{ e with api := api2 }, { c2 with signerProvider := none }, w2,
          aggregate (some m) (some ("failed to update CredentialIssuer status: " ++ mu)),
          none⟩
      | none =>
        ⟨setEnv e api2 (some ⟨iss.spec, mergeStrategies (errorStrategy now m) iss.strategies⟩),
          { c2 with signerProvider := none }, w2, some m, some (errorStrategy now m)⟩

/-- The work queue key used by this controller (a single constant key). -/
def singletonKey : Nat := 0

/-- Modelled from the spec (§4.6, §5): the supervisor's reaction to the
proxy exiting without having been asked to stop — record the error in the
one-shot slot and add the singleton key to the work queue once. -/
def proxyExit (msg : String) (c : CtrlState) (q : List Nat) : CtrlState × List Nat :=
  if c.running then
    ({ c with running := false, errSlot := some msg }, q ++ [singletonKey])
  else (c, q)

/-- The environment after the informer caches absorb all of a sync's
writes: the informer view equals the API contents. -/
def converge (r : SyncResult) : Env :=
  { r.env with informer := r.env.api }

/-! ### Concrete fixtures used by witnesses and counterexamples -/

/-- A namespace with none of the watched or owned objects. -/
def emptyKube : KubeState := ⟨none, none, none, none, none⟩

/-- Controller state at process start. -/
def idleCtrl : CtrlState := ⟨false, none, none, none, 0, 0⟩

/-- A well-formed signing-key secret. -/
def goodSigner : SignerData := ⟨1, 2, true⟩

/-- A namespace holding only the sister controller's signing secret. -/
def signerKube : KubeState := { emptyKube with signerSecret := some goodSigner }

/-- Spec block: auto mode, defaults otherwise. -/
def autoSpec : ProxySpec := ⟨"auto", "", "", [], ""⟩

/-- Spec block: manually disabled. -/
def disabledSpec : ProxySpec := ⟨"disabled", "", "", [], ""⟩

/-- Spec block: enabled with an explicit external endpoint and no service. -/
def epSpec (ep : String) : ProxySpec := ⟨"enabled", ep, "None", [], ""⟩

/-- Spec block: enabled with a ClusterIP service. -/
def cipSpec : ProxySpec := ⟨"enabled", "", "ClusterIP", [], ""⟩

/-- A CredentialIssuer with the given spec block and empty status. -/
def mkIssuer (p : ProxySpec) : Issuer := ⟨some p, []⟩

/-- A converged environment (informers in sync with the API). -/
def mkEnv (k : KubeState) (cp : Bool) (p : ProxySpec) : Env :=
  ⟨k, k, cp, false, some (mkIssuer p)⟩

/-- A dual-stack ClusterIP service carrying an IPv4 and an IPv6 address. -/
def dualStackSvc : Service := ⟨[], "", ["127.0.0.123", "fd00::5118"], []⟩

/-- A pre-existing well-formed CA secret. -/
def fixedCA : CASecretData := ⟨true, 7, "Pinniped Impersonation Proxy CA", -5, 100⟩

/-- A TLS secret with no usable PEM data (like the tests' empty secret). -/
def emptyTls : TLSData := ⟨false, false, false, 0, [], []⟩

/-- A pre-existing strategy entry owned by a sister controller. -/
def peerStrategy : Strategy :=
  ⟨"KubeClusterSigningCertificate", "Success", "FetchedKey",
    "happy other unrelated strategy", 3, none⟩

/-! ### Lemmas about the status merge -/

/-- The predicate selecting this controller's strategy entries. -/
def isOurs (s : Strategy) : Bool := decide (s.sType = impersonationProxyType)

theorem isOurs_true {s : Strategy} (h : s.sType = impersonationProxyType) :
    isOurs s = true := by
  simp [isOurs, h]

theorem isOurs_false {s : Strategy} (h : ¬s.sType = impersonationProxyType) :
    isOurs s = false := by
  simp [isOurs, h]

theorem countP_replace (ours : Strategy) (h : ours.sType = impersonationProxyType) :
    ∀ l : List Strategy,
      (l.map (fun s => if s.sType = impersonationProxyType then ours else s)).countP isOurs =
        l.countP isOurs := by
  intro l
  induction l with
  | nil => rfl
  | cons a t ih =>
    by_cases ha : a.sType = impersonationProxyType
    · simp [List.countP_cons, ha, ih, isOurs_true h, isOurs_true ha]
    · simp [List.countP_cons, ha, ih, isOurs_false ha]

theorem filter_replace (ours : Strategy) (h : ours.sType = impersonationProxyType) :
    ∀ l : List Strategy,
      (l.map (fun s => if s.sType = impersonationProxyType then ours else s)).filter
          (fun s => !isOurs s) =
        l.filter (fun s => !isOurs s) := by
  intro l
  induction l with
  | nil => rfl
  | cons a t ih =>
    by_cases ha : a.sType = impersonationProxyType
    · simp [List.filter_cons, ha, ih, isOurs_true h, isOurs_true ha]
    · simp [List.filter_cons, ha, ih, isOurs_false ha]

theorem countP_eq_zero_of_any_false (l : List Strategy)
    (h : l.any isOurs = false) : l.countP isOurs = 0 := by
  rw [List.countP_eq_zero]
  intro a ha
  intro hp
  have := List.any_eq_true.mpr ⟨a, ha, hp⟩
  rw [h] at this
  exact Bool.noConfusion this

theorem mergeStrategies_exactly_one (ours : Strategy)
    (h : ours.sType = impersonationProxyType) (l : List Strategy)
    (hl : l.countP isOurs ≤ 1) :
    (mergeStrategies ours l).countP isOurs = 1 := by
  unfold mergeStrategies
  by_cases hany : l.any (fun s => decide (s.sType = impersonationProxyType)) = true
  · rw [if_pos hany]
    have hcount := countP_replace ours h l
    have hpos : 0 < l.countP isOurs := by
      rw [List.countP_pos_iff]
      obtain ⟨a, ha, hp⟩ := List.any_eq_true.mp hany
      exact ⟨a, ha, hp⟩
    omega
  · rw [if_neg hany]
    have h0 : l.countP isOurs = 0 :=
      countP_eq_zero_of_any_false l (Bool.eq_false_iff.mpr hany)
    simp [List.countP_append, h0, List.countP_cons, isOurs, h]

theorem mergeStrategies_preserves_peers (ours : Strategy)
    (h : ours.sType = impersonationProxyType) (l : List Strategy) :
    (mergeStrategies ours l).filter (fun s => !isOurs s) =
      l.filter (fun s => !isOurs s) := by
  unfold mergeStrategies
  by_cases hany : l.any (fun s => decide (s.sType = impersonationProxyType)) = true
  · rw [if_pos hany]
    exact filter_replace ours h l
  · rw [if_neg hany]
    simp [List.filter_append, List.filter_cons, isOurs, h]

theorem mergeStrategies_append_when_absent (ours : Strategy) (l : List Strategy)
    (h : l.any isOurs = false) :
    mergeStrategies ours l = l ++ [ours] := by
  have h' : l.any (fun s => decide (s.sType = impersonationProxyType)) = false := h
  unfold mergeStrategies
  rw [if_neg]
  simp only [h']
  exact Bool.false_ne_true

/-- Every strategy the sync body can emit carries this controller's type. -/
theorem doSync_ok_sType (f : Failures) (e : Env) (c : CtrlState) (iss : Issuer) (now : Int) :
    ∀ st, (doSync f e c iss now).out = Except.ok st → st.sType = impersonationProxyType := by
  intro st
  unfold doSync runTeardown runEnabled
  repeat' split
  all_goals intro h
  all_goals
    first
      | exact Except.noConfusion h
      | (cases h; rfl)

/-! ### Phase characterization lemmas -/

theorem deleteLB_third (inf api : KubeState) : (deleteLB noFailures inf api).2.2 = none := by
  unfold deleteLB noFailures
  split <;> rfl

theorem deleteCIP_third (inf api : KubeState) : (deleteCIP noFailures inf api).2.2 = none := by
  unfold deleteCIP noFailures
  split <;> rfl

theorem deleteStaleTLS_third (inf api : KubeState) :
    (deleteStaleTLS noFailures inf api).2.2 = none := by
  unfold deleteStaleTLS noFailures
  split <;> rfl

theorem ensureService_third (s : NormSpec) (inf api : KubeState) :
    (ensureService noFailures s inf api).2.2 = none := by
  unfold ensureService
  repeat' split
  all_goals try rfl
  all_goals
    (rename_i heq
     first
       | exact Option.noConfusion heq
       | (have h3 := congrArg (fun x => x.2.2) heq
          simp only [deleteLB_third, deleteCIP_third, deleteStaleTLS_third] at h3
          exact Option.noConfusion h3)
       | (have h3 := congrArg (fun x => x.2.2) heq
          simp only [deleteLB_third, deleteCIP_third, deleteStaleTLS_third] at h3
          exact h3.symm))

theorem createTLS_third (ca : CASecretData) (hosts : List String) (api : KubeState) :
    (createTLS noFailures ca hosts api).2.2 = Except.ok (newTLS ca hosts) := rfl

theorem ensureTLS_no_error (ca : CASecretData) (hosts : List String) (inf api : KubeState) :
    ∀ m, (ensureTLS noFailures ca hosts inf api).2.2 ≠ Except.error m := by
  intro m
  unfold ensureTLS
  repeat' split
  all_goals intro h
  all_goals
    first
      | exact Except.noConfusion h
      | (rename_i heq; exact Option.noConfusion heq)
      | (rename_i heq
         have h3 := congrArg (fun x => x.2.2) heq
         simp only [createTLS_third] at h3
         rw [← h3] at h
         exact Except.noConfusion h)

theorem ensureCA_absent (f : Failures) (inf api : KubeState) (c : CtrlState) (now : Int)
    (h : inf.caSecret = none) (hf : f.createCaErr = none) :
    ensureCA f inf api c now =
      ({ api with caSecret := some (freshCA c now) },
        { c with freshCtr := c.freshCtr + 1 }, [Action.createCaSecret],
        Except.ok (freshCA c now)) := by
  unfold ensureCA
  rw [h, hf]

theorem ensureCA_present (f : Failures) (inf api : KubeState) (c : CtrlState) (now : Int)
    (d : CASecretData) (h : inf.caSecret = some d) (hw : d.wellFormed = true) :
    ensureCA f inf api c now = (api, c, [], Except.ok d) := by
  unfold ensureCA
  simp only [h, hw, if_true]

theorem deleteStaleTLS_caSecret (f : Failures) (inf api : KubeState) :
    (deleteStaleTLS f inf api).1.caSecret = api.caSecret := by
  unfold deleteStaleTLS
  repeat' split
  all_goals rfl

theorem createTLS_caSecret (f : Failures) (ca : CASecretData) (hosts : List String)
    (api : KubeState) : (createTLS f ca hosts api).1.caSecret = api.caSecret := by
  unfold createTLS
  split <;> rfl

theorem ensureTLS_caSecret (f : Failures) (ca : CASecretData) (hosts : List String)
    (inf api : KubeState) : (ensureTLS f ca hosts inf api).1.caSecret = api.caSecret := by
  unfold ensureTLS
  repeat' split
  all_goals try rfl
  all_goals try exact createTLS_caSecret f ca hosts api
  all_goals
    (rename_i heq
     have h3 := congrArg (fun x => x.1.caSecret) heq
     simp only [createTLS_caSecret] at h3
     exact h3.symm)

theorem deleteLB_caSecret (f : Failures) (inf api : KubeState) :
    (deleteLB f inf api).1.caSecret = api.caSecret := by
  unfold deleteLB
  repeat' split
  all_goals rfl

theorem deleteCIP_caSecret (f : Failures) (inf api : KubeState) :
    (deleteCIP f inf api).1.caSecret = api.caSecret := by
  unfold deleteCIP
  repeat' split
  all_goals rfl

theorem deleteLB_signerSecret (f : Failures) (inf api : KubeState) :
    (deleteLB f inf api).1.signerSecret = api.signerSecret := by
  unfold deleteLB
  repeat' split
  all_goals rfl

theorem deleteCIP_signerSecret (f : Failures) (inf api : KubeState) :
    (deleteCIP f inf api).1.signerSecret = api.signerSecret := by
  unfold deleteCIP
  repeat' split
  all_goals rfl

theorem ensureService_caSecret (f : Failures) (s : NormSpec) (inf api : KubeState) :
    (ensureService f s inf api).1.caSecret = api.caSecret := by
  unfold ensureService
  cases s.kind
  case noService =>
    rcases h1 : deleteLB f inf api with ⟨a1, w1, r1⟩
    have e1 : a1.caSecret = api.caSecret := by
      rw [← deleteLB_caSecret f inf api, h1]
    cases r1
    case none =>
      rcases h2 : deleteCIP f inf a1 with ⟨a2, w2, r2⟩
      have e2 : a2.caSecret = a1.caSecret := by
        rw [← deleteCIP_caSecret f inf a1, h2]
      simp only [h1, h2]
      exact e2.trans e1
    case some m =>
      simp only [h1]
      exact e1
  case loadBalancer =>
    rcases h1 : deleteCIP f inf api with ⟨a1, w1, r1⟩
    have e1 : a1.caSecret = api.caSecret := by
      rw [← deleteCIP_caSecret f inf api, h1]
    cases r1
    case none =>
      simp only [h1]
      repeat' split
      all_goals exact e1
    case some m =>
      simp only [h1]
      exact e1
  case clusterIP =>
    rcases h1 : deleteLB f inf api with ⟨a1, w1, r1⟩
    have e1 : a1.caSecret = api.caSecret := by
      rw [← deleteLB_caSecret f inf api, h1]
    cases r1
    case none =>
      simp only [h1]
      repeat' split
      all_goals exact e1
    case some m =>
      simp only [h1]
      exact e1

theorem ensureService_signerSecret (f : Failures) (s : NormSpec) (inf api : KubeState) :
    (ensureService f s inf api).1.signerSecret = api.signerSecret := by
  unfold ensureService
  cases s.kind
  case noService =>
    rcases h1 : deleteLB f inf api with ⟨a1, w1, r1⟩
    have e1 : a1.signerSecret = api.signerSecret := by
      rw [← deleteLB_signerSecret f inf api, h1]
    cases r1
    case none =>
      rcases h2 : deleteCIP f inf a1 with ⟨a2, w2, r2⟩
      have e2 : a2.signerSecret = a1.signerSecret := by
        rw [← deleteCIP_signerSecret f inf a1, h2]
      simp only [h1, h2]
      exact e2.trans e1
    case some m =>
      simp only [h1]
      exact e1
  case loadBalancer =>
    rcases h1 : deleteCIP f inf api with ⟨a1, w1, r1⟩
    have e1 : a1.signerSecret = api.signerSecret := by
      rw [← deleteCIP_signerSecret f inf api, h1]
    cases r1
    case none =>
      simp only [h1]
      repeat' split
      all_goals exact e1
    case some m =>
      simp only [h1]
      exact e1
  case clusterIP =>
    rcases h1 : deleteLB f inf api with ⟨a1, w1, r1⟩
    have e1 : a1.signerSecret = api.signerSecret := by
      rw [← deleteLB_signerSecret f inf api, h1]
    cases r1
    case none =>
      simp only [h1]
      repeat' split
      all_goals exact e1
    case some m =>
      simp only [h1]
      exact e1


theorem ensureCA_lbSvc (f : Failures) (inf api : KubeState) (c : CtrlState) (now : Int) :
    (ensureCA f inf api c now).1.lbSvc = api.lbSvc := by
  unfold ensureCA
  repeat' split
  all_goals rfl

theorem ensureCA_cipSvc (f : Failures) (inf api : KubeState) (c : CtrlState) (now : Int) :
    (ensureCA f inf api c now).1.cipSvc = api.cipSvc := by
  unfold ensureCA
  repeat' split
  all_goals rfl

theorem ensureCA_signerSecret (f : Failures) (inf api : KubeState) (c : CtrlState)
    (now : Int) : (ensureCA f inf api c now).1.signerSecret = api.signerSecret := by
  unfold ensureCA
  repeat' split
  all_goals rfl

theorem deleteStaleTLS_lbSvc (f : Failures) (inf api : KubeState) :
    (deleteStaleTLS f inf api).1.lbSvc = api.lbSvc := by
  unfold deleteStaleTLS
  repeat' split
  all_goals rfl

theorem deleteStaleTLS_cipSvc (f : Failures) (inf api : KubeState) :
    (deleteStaleTLS f inf api).1.cipSvc = api.cipSvc := by
  unfold deleteStaleTLS
  repeat' split
  all_goals rfl

theorem deleteStaleTLS_signerSecret (f : Failures) (inf api : KubeState) :
    (deleteStaleTLS f inf api).1.signerSecret = api.signerSecret := by
  unfold deleteStaleTLS
  repeat' split
  all_goals rfl

theorem createTLS_lbSvc (f : Failures) (ca : CASecretData) (hosts : List String)
    (api : KubeState) : (createTLS f ca hosts api).1.lbSvc = api.lbSvc := by
  unfold createTLS
  split <;> rfl

theorem createTLS_cipSvc (f : Failures) (ca : CASecretData) (hosts : List String)
    (api : KubeState) : (createTLS f ca hosts api).1.cipSvc = api.cipSvc := by
  unfold createTLS
  split <;> rfl

theorem createTLS_signerSecret (f : Failures) (ca : CASecretData) (hosts : List String)
    (api : KubeState) : (createTLS f ca hosts api).1.signerSecret = api.signerSecret := by
  unfold createTLS
  split <;> rfl

theorem ensureTLS_lbSvc (f : Failures) (ca : CASecretData) (hosts : List String)
    (inf api : KubeState) : (ensureTLS f ca hosts inf api).1.lbSvc = api.lbSvc := by
  unfold ensureTLS
  repeat' split
  all_goals try rfl
  all_goals try exact createTLS_lbSvc f ca hosts api
  all_goals
    (rename_i heq
     have h3 := congrArg (fun x => x.1.lbSvc) heq
     simp only [createTLS_lbSvc] at h3
     exact h3.symm)

theorem ensureTLS_cipSvc (f : Failures) (ca : CASecretData) (hosts : List String)
    (inf api : KubeState) : (ensureTLS f ca hosts inf api).1.cipSvc = api.cipSvc := by
  unfold ensureTLS
  repeat' split
  all_goals try rfl
  all_goals try exact createTLS_cipSvc f ca hosts api
  all_goals
    (rename_i heq
     have h3 := congrArg (fun x => x.1.cipSvc) heq
     simp only [createTLS_cipSvc] at h3
     exact h3.symm)

theorem ensureTLS_signerSecret (f : Failures) (ca : CASecretData) (hosts : List String)
    (inf api : KubeState) :
    (ensureTLS f ca hosts inf api).1.signerSecret = api.signerSecret := by
  unfold ensureTLS
  repeat' split
  all_goals try rfl
  all_goals try exact createTLS_signerSecret f ca hosts api
  all_goals
    (rename_i heq
     have h3 := congrArg (fun x => x.1.signerSecret) heq
     simp only [createTLS_signerSecret] at h3
     exact h3.symm)

theorem if_isSome_none {α : Type} (o : Option α) :
    (if o.isSome then none else o) = (none : Option α) := by
  cases o <;> rfl

theorem loadSigner_congr (k1 k2 : KubeState) (h : k1.signerSecret = k2.signerSecret) :
    loadSigner k1 = loadSigner k2 := by
  unfold loadSigner
  rw [h]

theorem resolveEndpoint_congr (s : NormSpec) (k1 k2 : KubeState)
    (h1 : k1.lbSvc = k2.lbSvc) (h2 : k1.cipSvc = k2.cipSvc) :
    resolveEndpoint s k1 = resolveEndpoint s k2 := by
  unfold resolveEndpoint
  rw [h1, h2]

theorem tlsValid_newTLS (ca : CASecretData) (hosts : List String) :
    tlsValid ca hosts (newTLS ca hosts) = true := by
  unfold tlsValid newTLS
  simp

theorem ensureTLS_keep (f : Failures) (ca : CASecretData) (hosts : List String)
    (inf api : KubeState) (t : TLSData) (h0 : inf.tlsSecret = some t)
    (hval : tlsValid ca hosts t = true) :
    ensureTLS f ca hosts inf api = (api, [], Except.ok t) := by
  unfold ensureTLS
  simp only [h0, hval, if_true]

theorem ensureCA_malformed (f : Failures) (inf api : KubeState) (c : CtrlState)
    (now : Int) (d : CASecretData) (hd : inf.caSecret = some d)
    (hw : d.wellFormed = false) :
    ensureCA f inf api c now =
      (api, c, [],
        Except.error
          "could not load CA: tls: failed to find any PEM data in certificate input") := by
  unfold ensureCA
  simp only [hd, hw, Bool.false_eq_true, if_false]

theorem ensureCA_ok_ca (f : Failures) (inf api : KubeState) (c : CtrlState) (now : Int)
    (a2 : KubeState) (c2 : CtrlState) (w2 : List Action) (ca : CASecretData)
    (h : ensureCA f inf api c now = (a2, c2, w2, Except.ok ca))
    (hc : inf.caSecret = api.caSecret) :
    a2.caSecret = some ca ∧ ca.wellFormed = true := by
  unfold ensureCA at h
  rcases hi : inf.caSecret with _ | d
  · simp only [hi] at h
    rcases hcr : f.createCaErr with _ | m
    · simp only [hcr, Prod.mk.injEq] at h
      obtain ⟨h1, h2, h3, h4⟩ := h
      obtain rfl := Except.ok.inj h4
      constructor
      · rw [← h1]
      · rfl
    · simp only [hcr, Prod.mk.injEq] at h
      exact absurd h.2.2.2 (fun hh => Except.noConfusion hh)
  · simp only [hi] at h
    by_cases hw : d.wellFormed = true
    · rw [if_pos hw] at h
      simp only [Prod.mk.injEq] at h
      obtain ⟨h1, h2, h3, h4⟩ := h
      obtain rfl := Except.ok.inj h4
      constructor
      · rw [← h1, ← hc, hi]
      · exact hw
    · rw [if_neg hw] at h
      simp only [Prod.mk.injEq] at h
      exact absurd h.2.2.2 (fun hh => Except.noConfusion hh)

theorem ensureCA_error_char (inf api : KubeState) (c : CtrlState) (now : Int)
    (a2 : KubeState) (c2 : CtrlState) (w2 : List Action) (m : String)
    (h : ensureCA noFailures inf api c now = (a2, c2, w2, Except.error m)) :
    a2 = api ∧ c2 = c ∧ w2 = [] ∧
    m = "could not load CA: tls: failed to find any PEM data in certificate input" ∧
    ∃ d, inf.caSecret = some d ∧ d.wellFormed = false := by
  unfold ensureCA noFailures at h
  rcases hi : inf.caSecret with _ | d
  · simp only [hi, Prod.mk.injEq] at h
    exact absurd h.2.2.2 (fun hh => Except.noConfusion hh)
  · simp only [hi] at h
    by_cases hw : d.wellFormed = true
    · rw [if_pos hw] at h
      simp only [Prod.mk.injEq] at h
      exact absurd h.2.2.2 (fun hh => Except.noConfusion hh)
    · rw [if_neg hw] at h
      simp only [Prod.mk.injEq] at h
      refine ⟨h.1.symm, h.2.1.symm, h.2.2.1.symm, ?_, d, rfl, Bool.eq_false_iff.mpr hw⟩
      exact (Except.error.inj h.2.2.2).symm

theorem ensureTLS_ok_valid (f : Failures) (ca : CASecretData) (hosts : List String)
    (inf api a3 : KubeState) (w3 : List Action) (t : TLSData)
    (h : ensureTLS f ca hosts inf api = (a3, w3, Except.ok t))
    (hconv : inf.tlsSecret = api.tlsSecret) :
    ∃ tv : TLSData, a3.tlsSecret = some tv ∧ tlsValid ca hosts tv = true := by
  unfold ensureTLS createTLS at h
  rcases hinf : inf.tlsSecret with _ | t0
  · simp only [hinf] at h
    rcases hcr : f.createTlsErr with _ | m
    · simp only [hcr, Prod.mk.injEq] at h
      refine ⟨newTLS ca hosts, ?_, tlsValid_newTLS ca hosts⟩
      rw [← h.1]
    · simp only [hcr, Prod.mk.injEq] at h
      exact absurd h.2.2 (fun hh => Except.noConfusion hh)
  · simp only [hinf] at h
    by_cases hval : tlsValid ca hosts t0 = true
    · rw [if_pos hval] at h
      simp only [Prod.mk.injEq] at h
      refine ⟨t0, ?_, hval⟩
      rw [← h.1, ← hconv, hinf]
    · rw [if_neg hval] at h
      rcases hdel : f.deleteTlsErr with _ | m
      · simp only [hdel] at h
        rcases hcr : f.createTlsErr with _ | m2
        · simp only [hcr, Prod.mk.injEq] at h
          refine ⟨newTLS ca hosts, ?_, tlsValid_newTLS ca hosts⟩
          rw [← h.1]
        · simp only [hcr, Prod.mk.injEq] at h
          exact absurd h.2.2 (fun hh => Except.noConfusion hh)
      · simp only [hdel, Prod.mk.injEq] at h
        exact absurd h.2.2 (fun hh => Except.noConfusion hh)

theorem deleteStaleTLS_tls_none (inf api : KubeState)
    (hc : inf.tlsSecret = api.tlsSecret) :
    (deleteStaleTLS noFailures inf api).1.tlsSecret = none := by
  unfold deleteStaleTLS noFailures
  rcases hi : inf.tlsSecret with _ | t0
  · simp only [hi]
    rw [← hc, hi]
  · simp only [hi]

theorem startedCtrl_errSlot (c : CtrlState) : (startedCtrl c).errSlot = c.errSlot := by
  unfold startedCtrl
  split <;> rfl

theorem ensureCA_errSlot (f : Failures) (inf api : KubeState) (c : CtrlState)
    (now : Int) : (ensureCA f inf api c now).2.1.errSlot = c.errSlot := by
  unfold ensureCA
  repeat' split
  all_goals rfl

theorem startIf_noFailures (b : Bool) :
    (if b then none else noFailures.startProxyErr) = none := by
  cases b <;> rfl

theorem runTeardown_noop (auto : Bool) (inf api : KubeState) (c : CtrlState) (now : Int)
    (hl : inf.lbSvc = none) (hc2 : inf.cipSvc = none) (ht : inf.tlsSecret = none) :
    runTeardown noFailures auto inf api c now =
      ⟨api, stoppedCtrl c, [], Except.ok (disabledStrategy now auto)⟩ := by
  unfold runTeardown deleteLB deleteCIP deleteStaleTLS
  simp only [hl, hc2, ht]
  rfl

/-- The managed-service fields are settled for the spec: no service of an
undesired kind remains and the desired one (when any) carries the desired
annotations and static IP. -/
def svcSettled (s : NormSpec) (lb cip : Option Service) : Prop :=
  match s.kind with
  | ServiceKind.noService => lb = none ∧ cip = none
  | ServiceKind.loadBalancer =>
    cip = none ∧ ∃ svc, lb = some svc ∧ svc.annots = s.annots ∧ svc.lbIP = s.lbIP
  | ServiceKind.clusterIP =>
    lb = none ∧ ∃ svc, cip = some svc ∧ svc.annots = s.annots ∧ svc.lbIP = s.lbIP

/-- On a settled converged state the service phase does nothing. -/
theorem ensureService_settled (s : NormSpec) (k2 : KubeState)
    (h : svcSettled s k2.lbSvc k2.cipSvc) :
    ensureService noFailures s k2 k2 = (k2, [], none) := by
  unfold svcSettled at h
  unfold ensureService deleteLB deleteCIP
  cases hk : s.kind
  case noService =>
    rw [hk] at h
    obtain ⟨h1, h2⟩ := h
    simp only [h1, h2]
    rfl
  case loadBalancer =>
    rw [hk] at h
    obtain ⟨h1, svc, h2, h3, h4⟩ := h
    simp only [h1, h2]
    rw [if_pos ⟨h3, h4⟩]
  case clusterIP =>
    rw [hk] at h
    obtain ⟨h1, svc, h2, h3, h4⟩ := h
    simp only [h1, h2]
    rw [if_pos ⟨h3, h4⟩]

/-- A fault-free service phase on a converged state leaves the service
fields settled. -/
theorem ensureService_settles (s : NormSpec) (k : KubeState) :
    svcSettled s (ensureService noFailures s k k).1.lbSvc
      (ensureService noFailures s k k).1.cipSvc := by
  unfold svcSettled ensureService deleteLB deleteCIP noFailures
  cases hk : s.kind
  case noService =>
    simp only [hk]
    cases hkl : k.lbSvc <;> cases hkc : k.cipSvc <;> simp only [hkl, hkc] <;>
      exact ⟨by first | rfl | trivial, by first | rfl | trivial⟩
  case loadBalancer =>
    simp only [hk]
    cases hkl : k.lbSvc <;> cases hkc : k.cipSvc <;> simp only [hkl, hkc]
    · exact ⟨by first | rfl | trivial, desiredService s, by first | rfl | trivial, rfl, rfl⟩
    · exact ⟨by first | rfl | trivial, desiredService s, by first | rfl | trivial, rfl, rfl⟩
    · split
      case _ hd => exact ⟨by first | rfl | trivial, _, by first | rfl | trivial, hd.1, hd.2⟩
      case _ hd => exact ⟨by first | rfl | trivial, _, by first | rfl | trivial, rfl, rfl⟩
    · split
      case _ hd => exact ⟨by first | rfl | trivial, _, by first | rfl | trivial, hd.1, hd.2⟩
      case _ hd => exact ⟨by first | rfl | trivial, _, by first | rfl | trivial, rfl, rfl⟩
  case clusterIP =>
    simp only [hk]
    cases hkl : k.lbSvc <;> cases hkc : k.cipSvc <;> simp only [hkl, hkc]
    · exact ⟨by first | rfl | trivial, desiredService s, by first | rfl | trivial, rfl, rfl⟩
    · split
      case _ hd => exact ⟨by first | rfl | trivial, _, by first | rfl | trivial, hd.1, hd.2⟩
      case _ hd => exact ⟨by first | rfl | trivial, _, by first | rfl | trivial, rfl, rfl⟩
    · exact ⟨by first | rfl | trivial, desiredService s, by first | rfl | trivial, rfl, rfl⟩
    · split
      case _ hd => exact ⟨by first | rfl | trivial, _, by first | rfl | trivial, hd.1, hd.2⟩
      case _ hd => exact ⟨by first | rfl | trivial, _, by first | rfl | trivial, rfl, rfl⟩

/-- A fault-free service phase on a converged state does not change how
the endpoint resolves. -/
theorem resolveEndpoint_stable (s : NormSpec) (k : KubeState) :
    resolveEndpoint s (ensureService noFailures s k k).1 = resolveEndpoint s k := by
  cases hk : s.kind
  case noService =>
    unfold resolveEndpoint
    simp only [hk]
    all_goals split <;> rfl
  case loadBalancer =>
    rcases hkl : k.lbSvc with _ | svc
    · have ha : (ensureService noFailures s k k).1.lbSvc = some (desiredService s) := by
        unfold ensureService deleteLB deleteCIP noFailures
        simp only [hk, hkl]
        cases hkc : k.cipSvc <;> simp only [hkc] <;> rfl
      unfold resolveEndpoint
      simp only [hk, ha, hkl, desiredService, List.map_nil, List.filter_nil, List.any_nil]
      all_goals split <;> rfl
    · by_cases hd : (svc.annots = s.annots ∧ svc.lbIP = s.lbIP)
      · have ha : (ensureService noFailures s k k).1.lbSvc = some svc := by
          unfold ensureService deleteLB deleteCIP noFailures
          simp only [hk, hkl]
          cases hkc : k.cipSvc <;> simp only [hkc] <;> rw [if_pos hd] <;> exact hkl
        unfold resolveEndpoint
        simp only [hk, ha, hkl]
        all_goals split <;> rfl
      · have ha : (ensureService noFailures s k k).1.lbSvc =
            some { svc with annots := s.annots, lbIP := s.lbIP } := by
          unfold ensureService deleteLB deleteCIP noFailures
          simp only [hk, hkl]
          cases hkc : k.cipSvc <;> simp only [hkc] <;> rw [if_neg hd] <;> rfl
        unfold resolveEndpoint
        simp only [hk, ha, hkl]
        all_goals split <;> rfl
  case clusterIP =>
    rcases hkc : k.cipSvc with _ | svc
    · have ha : (ensureService noFailures s k k).1.cipSvc = some (desiredService s) := by
        unfold ensureService deleteLB deleteCIP noFailures
        simp only [hk, hkc]
        cases hkl : k.lbSvc <;> simp only [hkl] <;> rfl
      unfold resolveEndpoint
      simp only [hk, ha, hkc, desiredService]
      all_goals split <;> rfl
    · by_cases hd : (svc.annots = s.annots ∧ svc.lbIP = s.lbIP)
      · have ha : (ensureService noFailures s k k).1.cipSvc = some svc := by
          unfold ensureService deleteLB deleteCIP noFailures
          simp only [hk, hkc]
          cases hkl : k.lbSvc <;> simp only [hkl] <;> rw [if_pos hd] <;> exact hkc
        unfold resolveEndpoint
        simp only [hk, ha, hkc]
        all_goals split <;> rfl
      · have ha : (ensureService noFailures s k k).1.cipSvc =
            some { svc with annots := s.annots, lbIP := s.lbIP } := by
          unfold ensureService deleteLB deleteCIP noFailures
          simp only [hk, hkc]
          cases hkl : k.lbSvc <;> simp only [hkl] <;> rw [if_neg hd] <;> rfl
        unfold resolveEndpoint
        simp only [hk, ha, hkc]
        all_goals split <;> rfl

/-! ### Characterization of the sync wrapper -/

/-- The strategy the wrapper publishes for a body outcome. -/
def strategyOf (now : Int) : Except String Strategy → Strategy
  | .ok st => st
  | .error m => errorStrategy now m

/-- The error the wrapper returns for a body outcome (no status failure). -/
def errOf : Except String Strategy → Option String
  | .ok _ => none
  | .error m => some m

/-- The controller state after the wrapper handles a body outcome: any body
error clears the signer provider. -/
def ctrlOf (c : CtrlState) : Except String Strategy → CtrlState
  | .ok _ => c
  | .error _ => { c with signerProvider := none }

/-- With the CredentialIssuer present and a healthy status write, a sync is
exactly: run the body, publish its strategy (an error becomes the
`ErrorDuringSetup` strategy and clears the signer provider), merge it into
the status. -/
theorem sync_char (f : Failures) (e : Env) (c : CtrlState) (now : Int) (iss : Issuer)
    (hiss : e.issuer = some iss) (hupd : f.updateStatusErr = none) :
    sync f e c now =
      ⟨setEnv e (doSync f e c iss now).api
          (some ⟨iss.spec,
            mergeStrategies (strategyOf now (doSync f e c iss now).out) iss.strategies⟩),
        ctrlOf (doSync f e c iss now).ctrl (doSync f e c iss now).out,
        (doSync f e c iss now).writes,
        errOf (doSync f e c iss now).out,
        some (strategyOf now (doSync f e c iss now).out)⟩ := by
  unfold sync
  split
  case _ heq =>
    rw [hiss] at heq
    exact Option.noConfusion heq
  case _ iss1 heq =>
    rw [hiss] at heq
    cases Option.some.inj heq
    split
    case _ api2 c2 w2 st hdo =>
      rw [hupd, hdo]
      rfl
    case _ api2 c2 w2 m hdo =>
      rw [hupd, hdo]
      rfl

theorem ctrlOf_errSlot (c : CtrlState) (o : Except String Strategy) :
    (ctrlOf c o).errSlot = c.errSlot := by
  cases o <;> rfl

theorem sync_of_doSync (f : Failures) (e : Env) (c : CtrlState) (now : Int)
    (iss : Issuer) (api2 : KubeState) (c2 : CtrlState) (w2 : List Action)
    (out : Except String Strategy)
    (hiss : e.issuer = some iss) (hupd : f.updateStatusErr = none)
    (hdo : doSync f e c iss now = ⟨api2, c2, w2, out⟩) :
    (sync f e c now).writes = w2 ∧
    (sync f e c now).published = some (strategyOf now out) := by
  rw [sync_char f e c now iss hiss hupd, hdo]
  exact ⟨rfl, rfl⟩

/-- Under a valid spec, visible nodes, and an enabled resolved mode, the
sync body is: handle a recorded exit, else start the proxy, else the
enabled-mode run. -/
theorem doSync_enabled (f : Failures) (e : Env) (c : CtrlState) (iss : Issuer) (now : Int)
    (s : NormSpec) (hspec : loadSpec iss.spec = Except.ok s) (hnn : e.noNodes = false)
    (hmode : ¬(s.mode = Mode.disabled ∨ (s.mode = Mode.auto ∧ e.hasControlPlane = true)))
    (hslot : c.errSlot = none)
    (hstart : (if c.running then none else f.startProxyErr) = none) :
    doSync f e c iss now = runEnabled f s e.informer e.api (startedCtrl c) now := by
  unfold doSync
  split
  case _ m heq =>
    rw [hspec] at heq
    exact Except.noConfusion heq
  case _ s1 heq =>
    rw [hspec] at heq
    cases Except.ok.inj heq
    rw [if_neg]
    · rw [if_neg hmode, hslot, hstart]
    · rw [hnn]
      exact Bool.false_ne_true

/-- Under a valid spec and visible nodes, a disabled resolved mode makes
the sync body the teardown run. -/
theorem doSync_disabled (f : Failures) (e : Env) (c : CtrlState) (iss : Issuer) (now : Int)
    (s : NormSpec) (hspec : loadSpec iss.spec = Except.ok s) (hnn : e.noNodes = false)
    (hmode : s.mode = Mode.disabled ∨ (s.mode = Mode.auto ∧ e.hasControlPlane = true)) :
    doSync f e c iss now =
      runTeardown f (decide (s.mode = Mode.auto)) e.informer e.api c now := by
  unfold doSync
  split
  case _ m heq =>
    rw [hspec] at heq
    exact Except.noConfusion heq
  case _ s1 heq =>
    rw [hspec] at heq
    cases Except.ok.inj heq
    rw [if_neg]
    · rw [if_pos hmode]
    · rw [hnn]
      exact Bool.false_ne_true

theorem deleteStaleTLS_none (f : Failures) (inf api : KubeState)
    (h : inf.tlsSecret = none) : deleteStaleTLS f inf api = (api, [], none) := by
  unfold deleteStaleTLS
  rw [h]

theorem deleteStaleTLS_some (inf api : KubeState) (t : TLSData)
    (h : inf.tlsSecret = some t) :
    deleteStaleTLS noFailures inf api =
      ({ api with tlsSecret := none }, [Action.deleteTlsSecret], none) := by
  unfold deleteStaleTLS
  rw [h]
  rfl

/-- runEnabled on the pending path, given the outcome of each phase. -/
theorem runEnabled_pending (s : NormSpec) (inf api : KubeState) (c1 : CtrlState) (now : Int)
    (a1 : KubeState) (w1 : List Action)
    (hsvc : ensureService noFailures s inf api = (a1, w1, none))
    (hres : resolveEndpoint s inf = ResolveRes.pending)
    (a2 : KubeState) (c2 : CtrlState) (w2 : List Action) (ca : CASecretData)
    (hca : ensureCA noFailures inf a1 c1 now = (a2, c2, w2, Except.ok ca))
    (a3 : KubeState) (w3 : List Action)
    (htls : deleteStaleTLS noFailures inf a2 = (a3, w3, none)) :
    runEnabled noFailures s inf api c1 now =
      ⟨a3, { c2 with leafProvider := none, signerProvider := none },
        w1 ++ w2 ++ w3, Except.ok (pendingStrategy now)⟩ := by
  unfold runEnabled
  simp only [hsvc, hres, hca, htls]

/-- runEnabled on the resolved-endpoint path up to the signer load, given
the outcome of each phase. -/
theorem runEnabled_endpoint (s : NormSpec) (inf api : KubeState) (c1 : CtrlState) (now : Int)
    (a1 : KubeState) (w1 : List Action) (url : String) (hosts : List String)
    (hsvc : ensureService noFailures s inf api = (a1, w1, none))
    (hres : resolveEndpoint s inf = ResolveRes.endpoint url hosts)
    (a2 : KubeState) (c2 : CtrlState) (w2 : List Action) (ca : CASecretData)
    (hca : ensureCA noFailures inf a1 c1 now = (a2, c2, w2, Except.ok ca))
    (a3 : KubeState) (w3 : List Action) (t : TLSData)
    (htls : ensureTLS noFailures ca hosts inf a2 = (a3, w3, Except.ok t)) :
    runEnabled noFailures s inf api c1 now =
      match loadSigner inf with
      | .error m =>
        ⟨a3, { c2 with leafProvider := some t, signerProvider := none },
          w1 ++ w2 ++ w3, .error m⟩
      | .ok pr =>
        ⟨a3, { c2 with leafProvider := some t, signerProvider := some pr },
          w1 ++ w2 ++ w3, .ok (successStrategy now url ca.matId)⟩ := by
  unfold runEnabled
  simp only [hsvc, hres, hca, htls]

/-- C2.  After every sync that writes status (the CredentialIssuer exists
and the status update succeeds), starting from a status holding at most one
entry of our type: the written strategy array is the key-preserving splice
of our entry — it contains exactly one `ImpersonationProxy` entry, entries
of other types are preserved unchanged in their original order, and our
entry is appended at the end when no entry of our type existed before. -/
theorem c2_strategy_merge (f : Failures) (e : Env) (c : CtrlState) (now : Int)
    (iss : Issuer) (hiss : e.issuer = some iss) (hupd : f.updateStatusErr = none)
    (hpre : iss.strategies.countP isOurs ≤ 1) :
    ∃ st : Strategy, (sync f e c now).published = some st ∧
      st.sType = impersonationProxyType ∧
      ∃ iss2 : Issuer, (sync f e c now).env.issuer = some iss2 ∧
        iss2.strategies = mergeStrategies st iss.strategies ∧
        iss2.strategies.countP isOurs = 1 ∧
        iss2.strategies.filter (fun s => !isOurs s) =
          iss.strategies.filter (fun s => !isOurs s) ∧
        (iss.strategies.any isOurs = false → iss2.strategies = iss.strategies ++ [st]) := by
  unfold sync
  split
  case _ heq =>
    rw [hiss] at heq
    exact Option.noConfusion heq
  case _ iss1 heq =>
    rw [hiss] at heq
    cases Option.some.inj heq
    split
    case _ api2 c2 w2 st hdo =>
      have hst : st.sType = impersonationProxyType := by
        apply doSync_ok_sType f e c iss now
        rw [hdo]
      rw [hupd]
      refine ⟨st, rfl, hst, ⟨iss.spec, mergeStrategies st iss.strategies⟩, rfl, rfl, ?_, ?_, ?_⟩
      · exact mergeStrategies_exactly_one st hst iss.strategies hpre
      · exact mergeStrategies_preserves_peers st hst iss.strategies
      · intro habs
        exact mergeStrategies_append_when_absent st iss.strategies habs
    case _ api2 c2 w2 m hdo =>
      have hst : (errorStrategy now m).sType = impersonationProxyType := rfl
      rw [hupd]
      refine ⟨errorStrategy now m, rfl, hst,
        ⟨iss.spec, mergeStrategies (errorStrategy now m) iss.strategies⟩, rfl, rfl, ?_, ?_, ?_⟩
      · exact mergeStrategies_exactly_one _ hst iss.strategies hpre
      · exact mergeStrategies_preserves_peers _ hst iss.strategies
      · intro habs
        exact mergeStrategies_append_when_absent _ iss.strategies habs

/-- A converged environment in auto mode whose CredentialIssuer already
carries a peer-owned strategy entry. -/
def mergeEnv : Env :=
  ⟨signerKube, signerKube, false, false, some ⟨some autoSpec, [peerStrategy]⟩⟩

/-- Witness for C2: the merge behaviour on a concrete sync whose status
already holds one peer strategy entry. -/
theorem c2_strategy_merge_witness :
    ∃ st : Strategy, (sync noFailures mergeEnv idleCtrl 5).published = some st ∧
      st.sType = impersonationProxyType ∧
      ∃ iss2 : Issuer, (sync noFailures mergeEnv idleCtrl 5).env.issuer = some iss2 ∧
        iss2.strategies = mergeStrategies st [peerStrategy] ∧
        iss2.strategies.countP isOurs = 1 ∧
        iss2.strategies.filter (fun s => !isOurs s) =
          [peerStrategy].filter (fun s => !isOurs s) ∧
        ([peerStrategy].any isOurs = false → iss2.strategies = [peerStrategy] ++ [st]) :=
  c2_strategy_merge noFailures mergeEnv idleCtrl 5 ⟨some autoSpec, [peerStrategy]⟩
    rfl rfl (of_decide_eq_true rfl)

theorem deleteLB_absent (f : Failures) (inf api : KubeState) (h : inf.lbSvc = none) :
    deleteLB f inf api = (api, [], none) := by
  unfold deleteLB
  rw [h]

theorem deleteLB_present (inf api : KubeState) (svc : Service) (h : inf.lbSvc = some svc) :
    deleteLB noFailures inf api =
      ({ api with lbSvc := none }, [Action.deleteSvc SvcId.lb], none) := by
  unfold deleteLB
  rw [h]
  rfl

theorem deleteCIP_absent (f : Failures) (inf api : KubeState) (h : inf.cipSvc = none) :
    deleteCIP f inf api = (api, [], none) := by
  unfold deleteCIP
  rw [h]

theorem deleteCIP_present (inf api : KubeState) (svc : Service) (h : inf.cipSvc = some svc) :
    deleteCIP noFailures inf api =
      ({ api with cipSvc := none }, [Action.deleteSvc SvcId.cip], none) := by
  unfold deleteCIP
  rw [h]
  rfl

/-- The API contents after a fault-free teardown: every managed object the
informer shows is deleted; objects the informer does not show are left as
the API has them (an API-side not-found during delete is swallowed). -/
def teardownKube (inf api : KubeState) : KubeState :=
  { api with
      lbSvc := if inf.lbSvc.isSome then none else api.lbSvc,
      cipSvc := if inf.cipSvc.isSome then none else api.cipSvc,
      tlsSecret := if inf.tlsSecret.isSome then none else api.tlsSecret }

theorem runTeardown_eq (auto : Bool) (inf api : KubeState) (c : CtrlState) (now : Int) :
    ∃ w : List Action,
      runTeardown noFailures auto inf api c now =
        ⟨teardownKube inf api, stoppedCtrl c, w, Except.ok (disabledStrategy now auto)⟩ := by
  unfold runTeardown
  rcases hl : inf.lbSvc with _ | lsvc <;> rcases hc2 : inf.cipSvc with _ | csvc <;>
    rcases ht : inf.tlsSecret with _ | tsec <;>
    simp only [deleteLB, deleteCIP, deleteStaleTLS, noFailures, teardownKube, hl, hc2, ht,
      Option.isSome_none, Option.isSome_some, if_true, if_false, Bool.false_eq_true,
      List.nil_append, List.append_nil] <;>
    exact ⟨_, rfl⟩

/-- C3.  For every configuration whose resolved mode is Disabled or
AutoDisabled, a single fault-free reconcile deletes the managed Services
(when present) and the TLS secret (when present; an API-side not-found on
that delete is not an error), keeps the proxy stopped, clears the signer
provider, publishes an `Error/Disabled` strategy whose message
distinguishes manual from automatic disabling, and returns success.  The
object hypotheses say each API-side object is either already absent or
visible to the informer (so its delete is issued). -/
theorem c3_disabled_teardown (e : Env) (c : CtrlState) (now : Int) (iss : Issuer)
    (s : NormSpec) (hiss : e.issuer = some iss) (hspec : loadSpec iss.spec = Except.ok s)
    (hnn : e.noNodes = false)
    (hmode : s.mode = Mode.disabled ∨ (s.mode = Mode.auto ∧ e.hasControlPlane = true))
    (hlb : e.api.lbSvc = none ∨ e.informer.lbSvc.isSome = true)
    (hcip : e.api.cipSvc = none ∨ e.informer.cipSvc.isSome = true)
    (htls : e.api.tlsSecret = none ∨ e.informer.tlsSecret.isSome = true) :
    (sync noFailures e c now).err = none ∧
    (sync noFailures e c now).env.api.lbSvc = none ∧
    (sync noFailures e c now).env.api.cipSvc = none ∧
    (sync noFailures e c now).env.api.tlsSecret = none ∧
    (sync noFailures e c now).ctrl.running = false ∧
    (sync noFailures e c now).ctrl.signerProvider = none ∧
    (sync noFailures e c now).published =
      some (disabledStrategy now (decide (s.mode = Mode.auto))) ∧
    (disabledStrategy now true).message =
      "automatically determined that impersonation proxy should be disabled" ∧
    (disabledStrategy now false).message =
      "impersonation proxy was explicitly disabled by configuration" ∧
    (disabledStrategy now (decide (s.mode = Mode.auto))).status = "Error" ∧
    (disabledStrategy now (decide (s.mode = Mode.auto))).reason = "Disabled" := by
  have hchar := sync_char noFailures e c now iss hiss rfl
  have hdo := doSync_disabled noFailures e c iss now s hspec hnn hmode
  rcases runTeardown_eq (decide (s.mode = Mode.auto)) e.informer e.api c now with ⟨w, hrun⟩
  have hl2 : (if e.informer.lbSvc.isSome then none else e.api.lbSvc) = none := by
    rcases hlb with h | h
    · rw [h]
      split <;> rfl
    · rw [h]
      rfl
  have hc2 : (if e.informer.cipSvc.isSome then none else e.api.cipSvc) = none := by
    rcases hcip with h | h
    · rw [h]
      split <;> rfl
    · rw [h]
      rfl
  have ht2 : (if e.informer.tlsSecret.isSome then none else e.api.tlsSecret) = none := by
    rcases htls with h | h
    · rw [h]
      split <;> rfl
    · rw [h]
      rfl
  refine ⟨?_, ?_, ?_, ?_, ?_, ?_, ?_, rfl, rfl, rfl, rfl⟩ <;>
    simp only [hchar, hdo, hrun, setEnv, teardownKube, errOf, ctrlOf, strategyOf, stoppedCtrl]
  · exact hl2
  · exact hc2
  · exact ht2

/-- A disabled-mode environment where the informer still shows a TLS
secret that is already gone from the API (the not-found case). -/
def disabledEnv : Env :=
  ⟨emptyKube, { emptyKube with tlsSecret := some emptyTls }, false, false,
    some (mkIssuer disabledSpec)⟩

/-- Witness for C3: a concrete disabled-mode reconcile with an out-of-sync
TLS secret returns success and leaves everything torn down. -/
theorem c3_disabled_teardown_witness :
    (sync noFailures disabledEnv idleCtrl 5).err = none ∧
    (sync noFailures disabledEnv idleCtrl 5).env.api.lbSvc = none ∧
    (sync noFailures disabledEnv idleCtrl 5).env.api.cipSvc = none ∧
    (sync noFailures disabledEnv idleCtrl 5).env.api.tlsSecret = none ∧
    (sync noFailures disabledEnv idleCtrl 5).ctrl.running = false ∧
    (sync noFailures disabledEnv idleCtrl 5).ctrl.signerProvider = none ∧
    (sync noFailures disabledEnv idleCtrl 5).published =
      some (disabledStrategy 5 (decide (Mode.disabled = Mode.auto))) ∧
    (disabledStrategy 5 true).message =
      "automatically determined that impersonation proxy should be disabled" ∧
    (disabledStrategy 5 false).message =
      "impersonation proxy was explicitly disabled by configuration" ∧
    (disabledStrategy 5 (decide (Mode.disabled = Mode.auto))).status = "Error" ∧
    (disabledStrategy 5 (decide (Mode.disabled = Mode.auto))).reason = "Disabled" :=
  c3_disabled_teardown disabledEnv idleCtrl 5 (mkIssuer disabledSpec)
    ⟨Mode.disabled, "", "", ServiceKind.loadBalancer, [], ""⟩
    rfl rfl rfl (Or.inl rfl) (Or.inl rfl) (Or.inl rfl) (Or.inr rfl)

/-- The first sync of the C10 scenario: a successful reconcile that
populates the signer provider. -/
def c10FirstRun : SyncResult :=
  sync noFailures (mkEnv signerKube false (epSpec "127.0.0.1")) idleCtrl 5

/-- The environment after that sync converges and the CredentialIssuer is
deleted out of band. -/
def c10SecondEnv : Env :=
  { converge c10FirstRun with issuer := none }

/-- A sync that cannot find the CredentialIssuer returns a plain error and
does nothing else. -/
theorem sync_noIssuer (f : Failures) (e : Env) (c : CtrlState) (now : Int)
    (hiss : e.issuer = none) :
    sync f e c now =
      ⟨e, c, [],
        some "could not get CredentialIssuer to update: credentialissuer not found",
        none⟩ := by
  unfold sync
  rw [hiss]

/-- On any body outcome that is a strategy, the signer provider is
populated exactly when that strategy is a Success. -/
theorem doSync_ok_provider (f : Failures) (e : Env) (c : CtrlState) (iss : Issuer)
    (now : Int) :
    ∀ st, (doSync f e c iss now).out = Except.ok st →
      ((doSync f e c iss now).ctrl.signerProvider.isSome = true ↔
        st.status = "Success") := by
  intro st
  unfold doSync runTeardown runEnabled
  repeat' split
  all_goals intro h
  all_goals
    first
      | exact Except.noConfusion h
      | (cases h
         simp [stoppedCtrl, disabledStrategy, pendingStrategy, successStrategy])

/-- C10 counterexample.  The claim's "if and only if" fails on a sync that
cannot find the CredentialIssuer: after a successful sync populates the
signer provider, deleting the CredentialIssuer makes the next sync return a
plain error without publishing any strategy — so no Success strategy is
published while the provider stays populated. -/
theorem c10_counterexample :
    (sync noFailures c10SecondEnv c10FirstRun.ctrl 5).published = none ∧
    (sync noFailures c10SecondEnv c10FirstRun.ctrl 5).err =
      some "could not get CredentialIssuer to update: credentialissuer not found" ∧
    (sync noFailures c10SecondEnv c10FirstRun.ctrl 5).ctrl.signerProvider = some (1, 2) ∧
    c10FirstRun.published = some (successStrategy 5 "127.0.0.1" 0) :=
  ⟨by rfl, by rfl, by rfl, by rfl⟩

/-- C10 (amended).  For every sync that publishes a strategy, the in-memory
signing-certificate provider holds the signer key pair if and only if the
published strategy is a Success: any published Error strategy (Pending,
Disabled, API failures, signer load failures) leaves the provider empty,
clearing it if it was previously populated. -/
theorem c10_provider_iff_success (f : Failures) (e : Env) (c : CtrlState) (now : Int)
    (st : Strategy) (hupd : f.updateStatusErr = none)
    (hpub : (sync f e c now).published = some st) :
    (sync f e c now).ctrl.signerProvider.isSome = true ↔ st.status = "Success" := by
  cases hiss : e.issuer with
  | none =>
    rw [sync_noIssuer f e c now hiss] at hpub
    exact Option.noConfusion hpub
  | some iss =>
    have hchar := sync_char f e c now iss hiss hupd
    rw [hchar] at hpub ⊢
    cases hout : (doSync f e c iss now).out with
    | error m =>
      simp only [hout, strategyOf, ctrlOf] at hpub ⊢
      obtain rfl := Option.some.inj hpub
      simp [errorStrategy]
    | ok st2 =>
      simp only [hout, strategyOf, ctrlOf] at hpub ⊢
      obtain rfl := Option.some.inj hpub
      exact doSync_ok_provider f e c iss now _ hout

/-- Witness for C10 (amended): a concrete successful sync has a populated
signer provider matching its Success strategy. -/
theorem c10_provider_iff_success_witness :
    (sync noFailures (mkEnv signerKube false (epSpec "127.0.0.1")) idleCtrl 5).ctrl.signerProvider.isSome
        = true ↔
      (successStrategy 5 "127.0.0.1" 0).status = "Success" :=
  c10_provider_iff_success noFailures (mkEnv signerKube false (epSpec "127.0.0.1")) idleCtrl 5
    (successStrategy 5 "127.0.0.1" 0) rfl (by rfl)

theorem deleteLB_tlsSecret (f : Failures) (inf api : KubeState) :
    (deleteLB f inf api).1.tlsSecret = api.tlsSecret := by
  unfold deleteLB
  repeat' split
  all_goals rfl

theorem deleteCIP_tlsSecret (f : Failures) (inf api : KubeState) :
    (deleteCIP f inf api).1.tlsSecret = api.tlsSecret := by
  unfold deleteCIP
  repeat' split
  all_goals rfl

theorem ensureService_tlsSecret (f : Failures) (s : NormSpec) (inf api : KubeState) :
    (ensureService f s inf api).1.tlsSecret = api.tlsSecret := by
  unfold ensureService
  cases s.kind
  case noService =>
    rcases h1 : deleteLB f inf api with ⟨a1, w1, r1⟩
    have e1 : a1.tlsSecret = api.tlsSecret := by
      rw [← deleteLB_tlsSecret f inf api, h1]
    cases r1
    case none =>
      rcases h2 : deleteCIP f inf a1 with ⟨a2, w2, r2⟩
      have e2 : a2.tlsSecret = a1.tlsSecret := by
        rw [← deleteCIP_tlsSecret f inf a1, h2]
      simp only [h1, h2]
      exact e2.trans e1
    case some m =>
      simp only [h1]
      exact e1
  case loadBalancer =>
    rcases h1 : deleteCIP f inf api with ⟨a1, w1, r1⟩
    have e1 : a1.tlsSecret = api.tlsSecret := by
      rw [← deleteCIP_tlsSecret f inf api, h1]
    cases r1
    case none =>
      simp only [h1]
      repeat' split
      all_goals exact e1
    case some m =>
      simp only [h1]
      exact e1
  case clusterIP =>
    rcases h1 : deleteLB f inf api with ⟨a1, w1, r1⟩
    have e1 : a1.tlsSecret = api.tlsSecret := by
      rw [← deleteLB_tlsSecret f inf api, h1]
    cases r1
    case none =>
      simp only [h1]
      repeat' split
      all_goals exact e1
    case some m =>
      simp only [h1]
      exact e1

theorem ensureCA_tlsSecret (f : Failures) (inf api : KubeState) (c : CtrlState) (now : Int) :
    (ensureCA f inf api c now).1.tlsSecret = api.tlsSecret := by
  unfold ensureCA
  repeat' split
  all_goals rfl

theorem doSync_specError (f : Failures) (e : Env) (c : CtrlState) (iss : Issuer) (now : Int)
    (m : String) (h : loadSpec iss.spec = Except.error m) :
    doSync f e c iss now = ⟨e.api, { c with running := false }, [], Except.error m⟩ := by
  unfold doSync
  simp only [h]

theorem doSync_noNodes (f : Failures) (e : Env) (c : CtrlState) (iss : Issuer) (now : Int)
    (s : NormSpec) (hspec : loadSpec iss.spec = Except.ok s) (h : e.noNodes = true) :
    doSync f e c iss now = ⟨e.api, c, [], Except.error "no nodes found"⟩ := by
  unfold doSync
  simp only [hspec, h, if_true]

theorem doSync_errSlot (f : Failures) (e : Env) (c : CtrlState) (iss : Issuer) (now : Int)
    (s : NormSpec) (m : String) (hspec : loadSpec iss.spec = Except.ok s)
    (hnn : e.noNodes = false)
    (hmode : ¬(s.mode = Mode.disabled ∨ (s.mode = Mode.auto ∧ e.hasControlPlane = true)))
    (h : c.errSlot = some m) :
    doSync f e c iss now =
      ⟨e.api, { c with errSlot := none, running := false }, [], Except.error m⟩ := by
  unfold doSync
  simp only [hspec, hnn, Bool.false_eq_true, if_false]
  rw [if_neg hmode]
  simp only [h]

/-- A TLS ensure that ends in a kept or created leaf leaves a secret whose
SAN sets are exactly the expected ones for the resolved hosts. -/
theorem ensureTLS_ok_sans (f : Failures) (ca : CASecretData) (hosts : List String)
    (inf api a3 : KubeState) (w3 : List Action) (t : TLSData)
    (h : ensureTLS f ca hosts inf api = (a3, w3, Except.ok t))
    (hconv : inf.tlsSecret = api.tlsSecret) :
    ∃ tf : TLSData, a3.tlsSecret = some tf ∧
      tf.dnsNames = expectedDNSNames hosts ∧ tf.ipSANs = expectedIPSANs hosts := by
  unfold ensureTLS createTLS at h
  rcases hinf : inf.tlsSecret with _ | t0
  · simp only [hinf] at h
    rcases hcr : f.createTlsErr with _ | m
    · simp only [hcr, Prod.mk.injEq] at h
      refine ⟨newTLS ca hosts, ?_, rfl, rfl⟩
      rw [← h.1]
    · simp only [hcr, Prod.mk.injEq] at h
      exact absurd h.2.2 (fun hh => Except.noConfusion hh)
  · simp only [hinf] at h
    by_cases hval : tlsValid ca hosts t0 = true
    · rw [if_pos hval] at h
      simp only [Prod.mk.injEq] at h
      refine ⟨t0, ?_, ?_, ?_⟩
      · rw [← h.1, ← hconv, hinf]
      · have hv := hval
        unfold tlsValid at hv
        simp only [Bool.and_eq_true, decide_eq_true_eq] at hv
        exact hv.1.2
      · have hv := hval
        unfold tlsValid at hv
        simp only [Bool.and_eq_true, decide_eq_true_eq] at hv
        exact hv.2
    · rw [if_neg hval] at h
      rcases hdel : f.deleteTlsErr with _ | m
      · simp only [hdel] at h
        rcases hcr : f.createTlsErr with _ | m2
        · simp only [hcr, Prod.mk.injEq] at h
          refine ⟨newTLS ca hosts, ?_, rfl, rfl⟩
          rw [← h.1]
        · simp only [hcr, Prod.mk.injEq] at h
          exact absurd h.2.2 (fun hh => Except.noConfusion hh)
      · simp only [hdel] at h
        simp only [Prod.mk.injEq] at h
        exact absurd h.2.2 (fun hh => Except.noConfusion hh)

/-- C6 counterexample.  The claim states the created CA certificate's
subject common name is "Impersonation Proxy CA"; the controller (as pinned
by `requireCASecretWasCreated` in the repository's tests) creates it with
common name "Pinniped Impersonation Proxy CA".  Concretely: a sync that
needs TLS material and finds no CA secret creates one whose CN is not
"Impersonation Proxy CA". -/
theorem c6_cn_counterexample :
    ∃ d : CASecretData,
      (sync noFailures (mkEnv signerKube false (epSpec "127.0.0.1")) idleCtrl 5).env.api.caSecret
          = some d ∧
        ¬d.cn = "Impersonation Proxy CA" :=
  ⟨⟨true, 0, "Pinniped Impersonation Proxy CA", -5, 3153600005⟩, by rfl, by decide⟩

/-- C6 (amended).  Whenever the CA secret is absent and TLS material is
needed (valid spec, nodes listable, resolved mode enabled, no pending exit
error, endpoint resolution not failing, fault-free API), the reconcile
generates a self-signed CA and creates the CA secret such that the stored
certificate's subject common name is "Pinniped Impersonation Proxy CA",
its validity window is roughly 100 years (100 × 365 days), and its
not-before time lies slightly (ten seconds) in the past. -/
theorem c6_ca_generation (e : Env) (c : CtrlState) (now : Int) (iss : Issuer) (s : NormSpec)
    (hiss : e.issuer = some iss) (hspec : loadSpec iss.spec = Except.ok s)
    (hnn : e.noNodes = false)
    (hmode : ¬(s.mode = Mode.disabled ∨ (s.mode = Mode.auto ∧ e.hasControlPlane = true)))
    (hslot : c.errSlot = none) (hca : e.informer.caSecret = none)
    (hinv : ∀ m, resolveEndpoint s e.informer ≠ ResolveRes.invalid m) :
    ∃ d : CASecretData,
      (sync noFailures e c now).env.api.caSecret = some d ∧
      d.cn = "Pinniped Impersonation Proxy CA" ∧
      d.notBeforeTime = now - 10 ∧
      d.notAfterTime = now + hundredYears ∧
      Action.createCaSecret ∈ (sync noFailures e c now).writes := by
  have hchar := sync_char noFailures e c now iss hiss rfl
  have hdo := doSync_enabled noFailures e c iss now s hspec hnn hmode hslot
    (by cases hc : c.running <;> simp [hc, noFailures])
  rcases hsvc : ensureService noFailures s e.informer e.api with ⟨a1, w1, e1⟩
  have he1 : e1 = none := by
    have h3 := ensureService_third s e.informer e.api
    rw [hsvc] at h3
    exact h3
  subst he1
  have hcaeq := ensureCA_absent noFailures e.informer a1 (startedCtrl c) now hca rfl
  refine ⟨freshCA (startedCtrl c) now, ?_, rfl, rfl, rfl, ?_⟩
  all_goals cases hres : resolveEndpoint s e.informer with
  | invalid m => exact absurd hres (hinv m)
  | pending =>
    rcases htls : deleteStaleTLS noFailures e.informer
        { a1 with caSecret := some (freshCA (startedCtrl c) now) } with ⟨a3, w3, e3⟩
    have he3 : e3 = none := by
      have h3 := deleteStaleTLS_third e.informer
        { a1 with caSecret := some (freshCA (startedCtrl c) now) }
      rw [htls] at h3
      exact h3
    subst he3
    have hrun := runEnabled_pending s e.informer e.api (startedCtrl c) now a1 w1 hsvc hres
      _ _ _ _ hcaeq a3 w3 htls
    have ha3 : a3.caSecret = some (freshCA (startedCtrl c) now) := by
      have h4 := deleteStaleTLS_caSecret noFailures e.informer
        { a1 with caSecret := some (freshCA (startedCtrl c) now) }
      rw [htls] at h4
      exact h4
    simp only [hchar, hdo, hrun, setEnv]
    first
      | exact ha3
      | simp
  | endpoint url hosts =>
    rcases htls : ensureTLS noFailures (freshCA (startedCtrl c) now) hosts e.informer
        { a1 with caSecret := some (freshCA (startedCtrl c) now) } with ⟨a3, w3, r⟩
    cases r with
    | error m =>
      refine absurd ?_ (ensureTLS_no_error (freshCA (startedCtrl c) now) hosts e.informer
        { a1 with caSecret := some (freshCA (startedCtrl c) now) } m)
      rw [htls]
    | ok t =>
      have hrun := runEnabled_endpoint s e.informer e.api (startedCtrl c) now a1 w1 url hosts
        hsvc hres _ _ _ _ hcaeq a3 w3 t htls
      have ha3 : a3.caSecret = some (freshCA (startedCtrl c) now) := by
        have h4 := ensureTLS_caSecret noFailures (freshCA (startedCtrl c) now) hosts e.informer
          { a1 with caSecret := some (freshCA (startedCtrl c) now) }
        rw [htls] at h4
        exact h4
      simp only [hchar, hdo, hrun, setEnv]
      rcases hsig : loadSigner e.informer with m | pr <;> simp only [hsig] <;>
        first
          | exact ha3
          | simp

/-- Witness for C6 (amended): a concrete sync with an explicit endpoint and
no CA secret creates the CA with the asserted fields. -/
theorem c6_ca_generation_witness :
    ∃ d : CASecretData,
      (sync noFailures (mkEnv signerKube false (epSpec "127.0.0.1")) idleCtrl 5).env.api.caSecret
          = some d ∧
      d.cn = "Pinniped Impersonation Proxy CA" ∧
      d.notBeforeTime = 5 - 10 ∧
      d.notAfterTime = 5 + hundredYears ∧
      Action.createCaSecret ∈
        (sync noFailures (mkEnv signerKube false (epSpec "127.0.0.1")) idleCtrl 5).writes :=
  c6_ca_generation (mkEnv signerKube false (epSpec "127.0.0.1")) idleCtrl 5
    (mkIssuer (epSpec "127.0.0.1"))
    ⟨Mode.enabled, "127.0.0.1", "127.0.0.1", ServiceKind.noService, [], ""⟩
    rfl rfl rfl (of_decide_eq_true rfl) rfl rfl
    (by
      intro m h
      have h2 : ResolveRes.endpoint "127.0.0.1" ["127.0.0.1"] = ResolveRes.invalid m := h
      exact ResolveRes.noConfusion h2)

/-- A converged dual-stack ClusterIP environment: the managed ClusterIP
Service carries an IPv4 and an IPv6 address. -/
def dualStackEnv : Env :=
  mkEnv { signerKube with cipSvc := some dualStackSvc } false cipSpec

/-- C1 counterexample.  The claim states the TLS secret's SAN set equals
exactly the singleton set containing the resolved endpoint host.  On a
dual-stack ClusterIP Service the sync succeeds with the first cluster IP
as the advertised endpoint, yet the TLS secret it leaves in place carries
both cluster IPs as IP SANs — not the singleton set. -/
theorem c1_counterexample :
    (sync noFailures dualStackEnv idleCtrl 5).published =
      some (successStrategy 5 "127.0.0.123" 0) ∧
    ∃ t : TLSData,
      (sync noFailures dualStackEnv idleCtrl 5).env.api.tlsSecret = some t ∧
      t.ipSANs = ["127.0.0.123", "fd00::5118"] ∧
      ¬(t.dnsNames = [] ∧ t.ipSANs = ["127.0.0.123"]) :=
  ⟨by rfl, ⟨true, true, true, 0, [], ["127.0.0.123", "fd00::5118"]⟩, by rfl, by rfl,
    by decide⟩

/-- C1 (amended).  After every fault-free sync whose published strategy is
a Success (with the informer's view of the TLS secret in agreement with
the API), the configuration resolved to an endpoint, and the TLS secret
left in the API has exactly the resolved endpoint hosts as its SAN set:
the hosts parsing as IP addresses as the IP SANs and the others as the DNS
SANs — the set of all resolved hosts, not always a singleton. -/
theorem c1_tls_san (e : Env) (c : CtrlState) (now : Int) (st : Strategy)
    (hconv : e.informer.tlsSecret = e.api.tlsSecret)
    (hpub : (sync noFailures e c now).published = some st)
    (hst : st.status = "Success") :
    ∃ iss s url hosts,
      e.issuer = some iss ∧ loadSpec iss.spec = Except.ok s ∧
      resolveEndpoint s e.informer = ResolveRes.endpoint url hosts ∧
      ∃ t : TLSData, (sync noFailures e c now).env.api.tlsSecret = some t ∧
        t.dnsNames = expectedDNSNames hosts ∧ t.ipSANs = expectedIPSANs hosts := by
  cases hiss : e.issuer with
  | none =>
    rw [sync_noIssuer noFailures e c now hiss] at hpub
    exact Option.noConfusion hpub
  | some iss =>
    have hchar := sync_char noFailures e c now iss hiss rfl
    have hpub2 : strategyOf now (doSync noFailures e c iss now).out = st := by
      rw [hchar] at hpub
      exact Option.some.inj hpub
    cases hspec : loadSpec iss.spec with
    | error m =>
      have hout : (doSync noFailures e c iss now).out = Except.error m := by
        rw [doSync_specError noFailures e c iss now m hspec]
      rw [hout] at hpub2
      subst hpub2
      simp [strategyOf, errorStrategy, disabledStrategy, pendingStrategy] at hst
    | ok s =>
      cases hnn : e.noNodes with
      | true =>
        have hout : (doSync noFailures e c iss now).out =
            Except.error "no nodes found" := by
          rw [doSync_noNodes noFailures e c iss now s hspec hnn]
        rw [hout] at hpub2
        subst hpub2
        simp [strategyOf, errorStrategy] at hst
      | false =>
        by_cases hmode : s.mode = Mode.disabled ∨ (s.mode = Mode.auto ∧ e.hasControlPlane = true)
        · rcases runTeardown_eq (decide (s.mode = Mode.auto)) e.informer e.api c now with ⟨w, hrt⟩
          have hout : (doSync noFailures e c iss now).out =
              Except.ok (disabledStrategy now (decide (s.mode = Mode.auto))) := by
            rw [doSync_disabled noFailures e c iss now s hspec hnn hmode, hrt]
          rw [hout] at hpub2
          subst hpub2
          simp [strategyOf, errorStrategy, disabledStrategy] at hst
        · cases hslot : c.errSlot with
          | some m =>
            have hout : (doSync noFailures e c iss now).out = Except.error m := by
              rw [doSync_errSlot noFailures e c iss now s m hspec hnn hmode hslot]
            rw [hout] at hpub2
            subst hpub2
            simp [strategyOf, errorStrategy, disabledStrategy, pendingStrategy] at hst
          | none =>
            have hstart : (if c.running then none else noFailures.startProxyErr) = none := by
              cases hr : c.running <;> simp [hr, noFailures]
            have hdo := doSync_enabled noFailures e c iss now s hspec hnn hmode hslot hstart
            rcases hsvc : ensureService noFailures s e.informer e.api with ⟨a1, w1, e1⟩
            have he1 : e1 = none := by
              have h3 := ensureService_third s e.informer e.api
              rw [hsvc] at h3
              exact h3
            subst he1
            cases hres : resolveEndpoint s e.informer with
            | invalid m =>
              have hrun : runEnabled noFailures s e.informer e.api (startedCtrl c) now =
                  ⟨a1, { startedCtrl c with leafProvider := none }, w1, Except.error m⟩ := by
                unfold runEnabled
                simp only [hsvc, hres]
              have hout : (doSync noFailures e c iss now).out = Except.error m := by
                rw [hdo, hrun]
              rw [hout] at hpub2
              subst hpub2
              simp [strategyOf, errorStrategy] at hst
            | pending =>
              rcases hca : ensureCA noFailures e.informer a1 (startedCtrl c) now
                with ⟨a2, c2, w2, r2⟩
              cases r2 with
              | error m =>
                have hrun : runEnabled noFailures s e.informer e.api (startedCtrl c) now =
                    ⟨a2, c2, w1 ++ w2, Except.error m⟩ := by
                  unfold runEnabled
                  simp only [hsvc, hres, hca]
                have hout : (doSync noFailures e c iss now).out = Except.error m := by
                  rw [hdo, hrun]
                rw [hout] at hpub2
                subst hpub2
                simp [strategyOf, errorStrategy, pendingStrategy] at hst
              | ok ca =>
                rcases htls : deleteStaleTLS noFailures e.informer a2 with ⟨a3, w3, e3⟩
                have he3 : e3 = none := by
                  have h3 := deleteStaleTLS_third e.informer a2
                  rw [htls] at h3
                  exact h3
                subst he3
                have hrun := runEnabled_pending s e.informer e.api (startedCtrl c) now
                  a1 w1 hsvc hres a2 c2 w2 ca hca a3 w3 htls
                have hout : (doSync noFailures e c iss now).out =
                    Except.ok (pendingStrategy now) := by
                  rw [hdo, hrun]
                rw [hout] at hpub2
                subst hpub2
                simp [strategyOf, errorStrategy, pendingStrategy] at hst
            | endpoint url hosts =>
              rcases hca : ensureCA noFailures e.informer a1 (startedCtrl c) now
                with ⟨a2, c2, w2, r2⟩
              cases r2 with
              | error m =>
                have hrun : runEnabled noFailures s e.informer e.api (startedCtrl c) now =
                    ⟨a2, c2, w1 ++ w2, Except.error m⟩ := by
                  unfold runEnabled
                  simp only [hsvc, hres, hca]
                have hout : (doSync noFailures e c iss now).out = Except.error m := by
                  rw [hdo, hrun]
                rw [hout] at hpub2
                subst hpub2
                simp [strategyOf, errorStrategy, pendingStrategy] at hst
              | ok ca =>
                rcases htls : ensureTLS noFailures ca hosts e.informer a2 with ⟨a3, w3, r3⟩
                cases r3 with
                | error m =>
                  refine absurd ?_ (ensureTLS_no_error ca hosts e.informer a2 m)
                  rw [htls]
                | ok t =>
                  have hrun := runEnabled_endpoint s e.informer e.api (startedCtrl c) now
                    a1 w1 url hosts hsvc hres a2 c2 w2 ca hca a3 w3 t htls
                  have hc1 : a1.tlsSecret = e.api.tlsSecret := by
                    have h4 := ensureService_tlsSecret noFailures s e.informer e.api
                    rw [hsvc] at h4
                    exact h4
                  have hc2a : a2.tlsSecret = a1.tlsSecret := by
                    have h4 := ensureCA_tlsSecret noFailures e.informer a1 (startedCtrl c) now
                    rw [hca] at h4
                    exact h4
                  have hconv2 : e.informer.tlsSecret = a2.tlsSecret := by
                    rw [hc2a, hc1, hconv]
                  obtain ⟨tf, htf, hdns, hip⟩ :=
                    ensureTLS_ok_sans noFailures ca hosts e.informer a2 a3 w3 t htls hconv2
                  refine ⟨iss, s, url, hosts, rfl, hspec, hres, tf, ?_, hdns, hip⟩
                  cases hsig : loadSigner e.informer with
                  | error m =>
                    have hout : (doSync noFailures e c iss now).out = Except.error m := by
                      rw [hdo, hrun]
                      simp only [hsig]
                    rw [hout] at hpub2
                    subst hpub2
                    simp [strategyOf, errorStrategy] at hst
                  | ok pr =>
                    have hapi : (sync noFailures e c now).env.api =
                        (doSync noFailures e c iss now).api := by
                      rw [hchar]
                      rfl
                    rw [hapi, hdo, hrun]
                    simp only [hsig]
                    exact htf

/-- Witness for C1 (amended): the dual-stack ClusterIP sync publishes
Success and leaves a TLS secret whose SAN sets are exactly the expected
ones for both resolved cluster IPs. -/
theorem c1_tls_san_witness :
    ∃ iss s url hosts,
      dualStackEnv.issuer = some iss ∧ loadSpec iss.spec = Except.ok s ∧
      resolveEndpoint s dualStackEnv.informer = ResolveRes.endpoint url hosts ∧
      ∃ t : TLSData,
        (sync noFailures dualStackEnv idleCtrl 5).env.api.tlsSecret = some t ∧
        t.dnsNames = expectedDNSNames hosts ∧ t.ipSANs = expectedIPSANs hosts :=
  c1_tls_san dualStackEnv idleCtrl 5 (successStrategy 5 "127.0.0.123" 0)
    rfl (by rfl) rfl

/-- With no service requested and no managed services visible, the service
phase is a no-op. -/
theorem ensureService_noop (f : Failures) (s : NormSpec) (inf api : KubeState)
    (hkind : s.kind = ServiceKind.noService) (hlb : inf.lbSvc = none)
    (hcip : inf.cipSvc = none) :
    ensureService f s inf api = (api, [], none) := by
  unfold ensureService deleteLB deleteCIP
  simp only [hkind, hlb, hcip, List.nil_append]

/-- A fault-free TLS ensure that finds an unacceptable secret deletes it
and recreates it for the current hosts under the current CA. -/
theorem ensureTLS_rotate (ca : CASecretData) (hosts : List String) (inf api : KubeState)
    (t0 : TLSData) (h0 : inf.tlsSecret = some t0) (hinv : tlsValid ca hosts t0 = false) :
    ensureTLS noFailures ca hosts inf api =
      ({ api with tlsSecret := some (newTLS ca hosts) },
        [Action.deleteTlsSecret, Action.createTlsSecret], Except.ok (newTLS ca hosts)) := by
  unfold ensureTLS createTLS noFailures
  simp only [h0, hinv, Bool.false_eq_true, if_false]

/-- C4.  When the resolved endpoint has changed so that the persisted TLS
secret is no longer acceptable (while the CA secret is still well formed
and the signing key loads), a single fault-free reconcile issues exactly a
delete of the TLS secret followed by a create, the recreated secret is
issued under the existing CA (same CA material, no CA regeneration), and
the sync publishes a Success strategy for the newly resolved endpoint. -/
theorem c4_endpoint_rotation (e : Env) (c : CtrlState) (now : Int) (iss : Issuer)
    (s : NormSpec) (url : String) (hosts : List String) (ca : CASecretData)
    (t0 : TLSData) (pr : Nat × Nat)
    (hiss : e.issuer = some iss) (hspec : loadSpec iss.spec = Except.ok s)
    (hnn : e.noNodes = false)
    (hmode : ¬(s.mode = Mode.disabled ∨ (s.mode = Mode.auto ∧ e.hasControlPlane = true)))
    (hslot : c.errSlot = none)
    (hkind : s.kind = ServiceKind.noService)
    (hlb : e.informer.lbSvc = none) (hcip : e.informer.cipSvc = none)
    (hres : resolveEndpoint s e.informer = ResolveRes.endpoint url hosts)
    (hcas : e.informer.caSecret = some ca) (hcw : ca.wellFormed = true)
    (htls0 : e.informer.tlsSecret = some t0) (hinv : tlsValid ca hosts t0 = false)
    (hsig : loadSigner e.informer = Except.ok pr) :
    (sync noFailures e c now).writes = [Action.deleteTlsSecret, Action.createTlsSecret] ∧
    (sync noFailures e c now).env.api.caSecret = e.api.caSecret ∧
    (sync noFailures e c now).env.api.tlsSecret = some (newTLS ca hosts) ∧
    (newTLS ca hosts).caMatId = ca.matId ∧
    (sync noFailures e c now).published = some (successStrategy now url ca.matId) ∧
    (sync noFailures e c now).err = none := by
  have hchar := sync_char noFailures e c now iss hiss rfl
  have hstart : (if c.running then none else noFailures.startProxyErr) = none := by
    cases hr : c.running <;> simp [hr, noFailures]
  have hdo := doSync_enabled noFailures e c iss now s hspec hnn hmode hslot hstart
  have hsvc := ensureService_noop noFailures s e.informer e.api hkind hlb hcip
  have hcaeq := ensureCA_present noFailures e.informer e.api (startedCtrl c) now ca hcas hcw
  have htls := ensureTLS_rotate ca hosts e.informer e.api t0 htls0 hinv
  have hrun := runEnabled_endpoint s e.informer e.api (startedCtrl c) now
    e.api [] url hosts hsvc hres e.api (startedCtrl c) [] ca hcaeq
    _ _ _ htls
  refine ⟨?_, ?_, ?_, rfl, ?_, ?_⟩ <;>
    simp only [hchar, hdo, hrun, hsig, setEnv, strategyOf, errOf, ctrlOf,
      List.nil_append]

/-- The persisted objects of the C4 scenario: signer key, existing CA, and
a TLS secret issued for the previous endpoint 127.0.0.1. -/
def c4Kube : KubeState :=
  { signerKube with caSecret := some fixedCA,
                    tlsSecret := some (newTLS fixedCA ["127.0.0.1"]) }

/-- The converged C4 environment after the external endpoint was changed
to the hostname example.com. -/
def c4Env : Env := mkEnv c4Kube false (epSpec "example.com")

/-- Witness for C4: flipping the explicit endpoint from an IP to a
hostname makes the next sync delete and recreate the TLS secret under the
kept CA and publish Success for the hostname. -/
theorem c4_endpoint_rotation_witness :
    (sync noFailures c4Env idleCtrl 5).writes =
      [Action.deleteTlsSecret, Action.createTlsSecret] ∧
    (sync noFailures c4Env idleCtrl 5).env.api.caSecret = c4Env.api.caSecret ∧
    (sync noFailures c4Env idleCtrl 5).env.api.tlsSecret =
      some (newTLS fixedCA ["example.com"]) ∧
    (newTLS fixedCA ["example.com"]).caMatId = fixedCA.matId ∧
    (sync noFailures c4Env idleCtrl 5).published =
      some (successStrategy 5 "example.com" fixedCA.matId) ∧
    (sync noFailures c4Env idleCtrl 5).err = none :=
  c4_endpoint_rotation c4Env idleCtrl 5 (mkIssuer (epSpec "example.com"))
    ⟨Mode.enabled, "example.com", "example.com", ServiceKind.noService, [], ""⟩
    "example.com" ["example.com"] fixedCA (newTLS fixedCA ["127.0.0.1"]) (1, 2)
    rfl (by rfl) rfl (of_decide_eq_true rfl) rfl rfl rfl rfl (by rfl) rfl rfl
    rfl (by rfl) (by rfl)

/-- Failure set where only the TLS-secret delete call fails. -/
def delFail (m : String) : Failures := { noFailures with deleteTlsErr := some m }

/-- A TLS ensure that finds an unacceptable secret and cannot delete it
reports the delete error prefixed by the reason the secret was rejected,
and leaves the API untouched. -/
theorem ensureTLS_deleteFail (f : Failures) (ca : CASecretData) (hosts : List String)
    (inf api : KubeState) (t0 : TLSData) (m : String)
    (h0 : inf.tlsSecret = some t0) (hinv : tlsValid ca hosts t0 = false)
    (hdel : f.deleteTlsErr = some m) :
    ensureTLS f ca hosts inf api =
      (api, [Action.deleteTlsSecret], Except.error (tlsDeleteFailureMsg t0 m)) := by
  unfold ensureTLS
  simp only [h0, hinv, Bool.false_eq_true, if_false, hdel]

/-- The proxy is running after `ensure(Running)`. -/
theorem startedCtrl_running (c : CtrlState) : (startedCtrl c).running = true := by
  unfold startedCtrl
  split
  · assumption
  · rfl

/-- C7.  With the persisted TLS secret unacceptable for the current CA and
hosts: (a) a fault-free reconcile deletes it and recreates a valid one for
the current endpoint, ending in Success; (b) when the delete call fails,
the sync returns the delete error prefixed by the reason the secret was
rejected, publishes it as an Error strategy, leaves the API untouched, and
leaves the proxy running with no serving certificate loaded. -/
theorem c7_tls_delete_recreate (e : Env) (c : CtrlState) (now : Int) (iss : Issuer)
    (s : NormSpec) (url : String) (hosts : List String) (ca : CASecretData)
    (t0 : TLSData) (pr : Nat × Nat) (m : String)
    (hiss : e.issuer = some iss) (hspec : loadSpec iss.spec = Except.ok s)
    (hnn : e.noNodes = false)
    (hmode : ¬(s.mode = Mode.disabled ∨ (s.mode = Mode.auto ∧ e.hasControlPlane = true)))
    (hslot : c.errSlot = none)
    (hkind : s.kind = ServiceKind.noService)
    (hlb : e.informer.lbSvc = none) (hcip : e.informer.cipSvc = none)
    (hres : resolveEndpoint s e.informer = ResolveRes.endpoint url hosts)
    (hcas : e.informer.caSecret = some ca) (hcw : ca.wellFormed = true)
    (htls0 : e.informer.tlsSecret = some t0) (hinv : tlsValid ca hosts t0 = false)
    (hsig : loadSigner e.informer = Except.ok pr) :
    ((sync noFailures e c now).writes =
        [Action.deleteTlsSecret, Action.createTlsSecret] ∧
      (sync noFailures e c now).env.api.tlsSecret = some (newTLS ca hosts) ∧
      tlsValid ca hosts (newTLS ca hosts) = true ∧
      (sync noFailures e c now).published = some (successStrategy now url ca.matId)) ∧
    ((sync (delFail m) e c now).err = some (tlsDeleteFailureMsg t0 m) ∧
      (sync (delFail m) e c now).published =
        some (errorStrategy now (tlsDeleteFailureMsg t0 m)) ∧
      (sync (delFail m) e c now).writes = [Action.deleteTlsSecret] ∧
      (sync (delFail m) e c now).env.api = e.api ∧
      (sync (delFail m) e c now).ctrl.running = true ∧
      (sync (delFail m) e c now).ctrl.leafProvider = none) := by
  constructor
  · have hchar := sync_char noFailures e c now iss hiss rfl
    have hstart : (if c.running then none else noFailures.startProxyErr) = none := by
      cases hr : c.running <;> simp [hr, noFailures]
    have hdo := doSync_enabled noFailures e c iss now s hspec hnn hmode hslot hstart
    have hsvc := ensureService_noop noFailures s e.informer e.api hkind hlb hcip
    have hcaeq := ensureCA_present noFailures e.informer e.api (startedCtrl c) now ca hcas hcw
    have htls := ensureTLS_rotate ca hosts e.informer e.api t0 htls0 hinv
    have hrun := runEnabled_endpoint s e.informer e.api (startedCtrl c) now
      e.api [] url hosts hsvc hres e.api (startedCtrl c) [] ca hcaeq
      _ _ _ htls
    have hval : tlsValid ca hosts (newTLS ca hosts) = true := by
      unfold tlsValid newTLS
      simp
    refine ⟨?_, ?_, hval, ?_⟩ <;>
      simp only [hchar, hdo, hrun, hsig, setEnv, strategyOf, errOf, ctrlOf,
        List.nil_append]
  · have hchar := sync_char (delFail m) e c now iss hiss rfl
    have hstart : (if c.running then none else (delFail m).startProxyErr) = none := by
      cases hr : c.running <;> simp [hr, delFail, noFailures]
    have hdo := doSync_enabled (delFail m) e c iss now s hspec hnn hmode hslot hstart
    have hsvc := ensureService_noop (delFail m) s e.informer e.api hkind hlb hcip
    have hcaeq := ensureCA_present (delFail m) e.informer e.api (startedCtrl c) now ca hcas hcw
    have htls := ensureTLS_deleteFail (delFail m) ca hosts e.informer e.api t0 m htls0 hinv rfl
    have hrun : runEnabled (delFail m) s e.informer e.api (startedCtrl c) now =
        ⟨e.api, { startedCtrl c with leafProvider := none },
          [] ++ [] ++ [Action.deleteTlsSecret],
          Except.error (tlsDeleteFailureMsg t0 m)⟩ := by
      unfold runEnabled
      simp only [hsvc, hres, hcaeq, htls]
    refine ⟨?_, ?_, ?_, ?_, ?_, ?_⟩ <;>
      simp only [hchar, hdo, hrun, setEnv, strategyOf, errOf, ctrlOf, List.nil_append]
    exact startedCtrl_running c

/-- Witness for C7: the C4 fixture (a TLS secret issued for the previous
endpoint) driven once fault-free and once with the delete call failing. -/
theorem c7_tls_delete_recreate_witness :
    ((sync noFailures c4Env idleCtrl 5).writes =
        [Action.deleteTlsSecret, Action.createTlsSecret] ∧
      (sync noFailures c4Env idleCtrl 5).env.api.tlsSecret =
        some (newTLS fixedCA ["example.com"]) ∧
      tlsValid fixedCA ["example.com"] (newTLS fixedCA ["example.com"]) = true ∧
      (sync noFailures c4Env idleCtrl 5).published =
        some (successStrategy 5 "example.com" fixedCA.matId)) ∧
    ((sync (delFail "error on delete") c4Env idleCtrl 5).err =
        some (tlsDeleteFailureMsg (newTLS fixedCA ["127.0.0.1"]) "error on delete") ∧
      (sync (delFail "error on delete") c4Env idleCtrl 5).published =
        some (errorStrategy 5
          (tlsDeleteFailureMsg (newTLS fixedCA ["127.0.0.1"]) "error on delete")) ∧
      (sync (delFail "error on delete") c4Env idleCtrl 5).writes =
        [Action.deleteTlsSecret] ∧
      (sync (delFail "error on delete") c4Env idleCtrl 5).env.api = c4Env.api ∧
      (sync (delFail "error on delete") c4Env idleCtrl 5).ctrl.running = true ∧
      (sync (delFail "error on delete") c4Env idleCtrl 5).ctrl.leafProvider = none) :=
  c7_tls_delete_recreate c4Env idleCtrl 5 (mkIssuer (epSpec "example.com"))
    ⟨Mode.enabled, "example.com", "example.com", ServiceKind.noService, [], ""⟩
    "example.com" ["example.com"] fixedCA (newTLS fixedCA ["127.0.0.1"]) (1, 2)
    "error on delete"
    rfl (by rfl) rfl (of_decide_eq_true rfl) rfl rfl rfl rfl (by rfl) rfl rfl
    rfl (by rfl) (by rfl)

/-- An environment where the CredentialIssuer has been deleted. -/
def noIssuerEnv : Env := ⟨emptyKube, emptyKube, false, false, none⟩

/-- Failure set of the tests' returns-both-errors case: the Service create
and the status update both fail. -/
def c8Fail : Failures :=
  { noFailures with createSvcErr := some "error on service creation",
                    updateStatusErr := some "error on update" }

/-- A converged ClusterIP environment with the issuer present. -/
def c8Env : Env := mkEnv signerKube false cipSpec

/-- C8 counterexample.  The claim says the status is written before the
reconciler returns on every sync.  When the CredentialIssuer cannot be
found, the sync returns an error having written no status at all. -/
theorem c8_counterexample :
    (sync noFailures noIssuerEnv idleCtrl 5).err =
      some "could not get CredentialIssuer to update: credentialissuer not found" ∧
    (sync noFailures noIssuerEnv idleCtrl 5).published = none :=
  ⟨by rfl, by rfl⟩

/-- A sync whose body fails and whose status update also fails returns the
bracketed combination of the two errors and publishes nothing. -/
theorem sync_updateFail_error (f : Failures) (e : Env) (c : CtrlState) (now : Int)
    (iss : Issuer) (m mu : String) (api2 : KubeState) (c2 : CtrlState) (w2 : List Action)
    (hiss : e.issuer = some iss)
    (hdo : doSync f e c iss now = ⟨api2, c2, w2, Except.error m⟩)
    (hupd : f.updateStatusErr = some mu) :
    sync f e c now =
      ⟨{ e with api := api2 }, { c2 with signerProvider := none }, w2,
        some ("[" ++ m ++ ", " ++ ("failed to update CredentialIssuer status: " ++ mu) ++ "]"),
        none⟩ := by
  unfold sync
  split
  case _ heq =>
    rw [hiss] at heq
    exact Option.noConfusion heq
  case _ iss1 heq =>
    rw [hiss] at heq
    cases Option.some.inj heq
    split
    case _ a2 cc2 ww2 st hd2 =>
      rw [hdo] at hd2
      have h4 := congrArg DoRes.out hd2
      exact Except.noConfusion h4
    case _ a2 cc2 ww2 m2 hd2 =>
      rw [hdo] at hd2
      cases hd2
      simp only [hupd, aggregate]

/-- C8 (amended).  When the CredentialIssuer exists, the status is always
written before the reconciler returns: with a healthy status update a
strategy is published and merged whatever the body outcome was, and when
the body fails together with the status update the reconciler returns the
single deterministic bracketed combination of the two errors (the body
error first, then the prefixed status-update error) — but when the
CredentialIssuer itself cannot be fetched, no status is written. -/
theorem c8_status_and_combined (f : Failures) (e : Env) (c : CtrlState) (now : Int)
    (iss : Issuer) (hiss : e.issuer = some iss) :
    (f.updateStatusErr = none →
      ∃ st : Strategy, (sync f e c now).published = some st ∧
        ∃ iss2 : Issuer, (sync f e c now).env.issuer = some iss2 ∧
          iss2.strategies = mergeStrategies st iss.strategies) ∧
    (∀ (m mu : String) (api2 : KubeState) (c2 : CtrlState) (w2 : List Action),
      doSync f e c iss now = ⟨api2, c2, w2, Except.error m⟩ →
      f.updateStatusErr = some mu →
      (sync f e c now).err =
        some ("[" ++ m ++ ", " ++ ("failed to update CredentialIssuer status: " ++ mu) ++ "]") ∧
      (sync f e c now).published = none) := by
  constructor
  · intro hupd
    have hchar := sync_char f e c now iss hiss hupd
    refine ⟨strategyOf now (doSync f e c iss now).out, ?_,
      ⟨iss.spec, mergeStrategies (strategyOf now (doSync f e c iss now).out) iss.strategies⟩,
      ?_, rfl⟩
    · rw [hchar]
    · rw [hchar]
      rfl
  · intro m mu api2 c2 w2 hdo hupd
    rw [sync_updateFail_error f e c now iss m mu api2 c2 w2 hiss hdo hupd]
    exact ⟨rfl, rfl⟩

/-- Witness for C8 (amended): with a healthy status update the ClusterIP
sync publishes and merges a strategy; with the Service create and the
status update both failing it returns the tests' combined error string and
publishes nothing. -/
theorem c8_status_and_combined_witness :
    (∃ st : Strategy, (sync noFailures c8Env idleCtrl 5).published = some st ∧
      ∃ iss2 : Issuer, (sync noFailures c8Env idleCtrl 5).env.issuer = some iss2 ∧
        iss2.strategies = mergeStrategies st (mkIssuer cipSpec).strategies) ∧
    ((sync c8Fail c8Env idleCtrl 5).err =
        some "[error on service creation, failed to update CredentialIssuer status: error on update]" ∧
      (sync c8Fail c8Env idleCtrl 5).published = none) :=
  ⟨(c8_status_and_combined noFailures c8Env idleCtrl 5 (mkIssuer cipSpec) rfl).1 rfl,
    (c8_status_and_combined c8Fail c8Env idleCtrl 5 (mkIssuer cipSpec) rfl).2
      "error on service creation" "error on update" signerKube
      ⟨true, none, none, none, 0, 1⟩ [Action.createSvc SvcId.cip] (by rfl) rfl⟩

/-- The CA phase never touches the proxy run state. -/
theorem ensureCA_ctrl (f : Failures) (inf api : KubeState) (c : CtrlState) (now : Int) :
    (ensureCA f inf api c now).2.1.running = c.running ∧
    (ensureCA f inf api c now).2.1.startCount = c.startCount := by
  constructor
  all_goals unfold ensureCA
  all_goals repeat' split
  all_goals rfl

/-- The enabled-mode run never stops the proxy it was handed and never
starts another one. -/
theorem runEnabled_ctrl (f : Failures) (s : NormSpec) (inf api : KubeState)
    (c1 : CtrlState) (now : Int) :
    (runEnabled f s inf api c1 now).ctrl.running = c1.running ∧
    (runEnabled f s inf api c1 now).ctrl.startCount = c1.startCount := by
  unfold runEnabled
  rcases hsvc : ensureService f s inf api with ⟨a1, w1, r1⟩
  cases r1
  case some m =>
    simp only [hsvc]
    constructor <;> trivial
  case none =>
    simp only [hsvc]
    cases hres : resolveEndpoint s inf
    case invalid m =>
      simp only [hres]
      constructor <;> trivial
    case pending =>
      simp only [hres]
      rcases hca : ensureCA f inf a1 c1 now with ⟨a2, c2, w2, r2⟩
      have hcc := ensureCA_ctrl f inf a1 c1 now
      rw [hca] at hcc
      cases r2
      case error m =>
        simp only [hca]
        exact hcc
      case ok ca =>
        simp only [hca]
        rcases htls : deleteStaleTLS f inf a2 with ⟨a3, w3, r3⟩
        cases r3 <;> simp only [htls] <;> exact ⟨hcc.1, hcc.2⟩
    case endpoint url hosts =>
      simp only [hres]
      rcases hca : ensureCA f inf a1 c1 now with ⟨a2, c2, w2, r2⟩
      have hcc := ensureCA_ctrl f inf a1 c1 now
      rw [hca] at hcc
      cases r2
      case error m =>
        simp only [hca]
        exact hcc
      case ok ca =>
        simp only [hca]
        rcases htls : ensureTLS f ca hosts inf a2 with ⟨a3, w3, r3⟩
        cases r3
        case error m =>
          simp only [htls]
          exact ⟨hcc.1, hcc.2⟩
        case ok t =>
          simp only [htls]
          cases hsig : loadSigner inf <;> simp only [hsig] <;> exact ⟨hcc.1, hcc.2⟩

/-- The wrapper's error handling only ever clears the signer provider. -/
theorem ctrlOf_run (c : CtrlState) (o : Except String Strategy) :
    (ctrlOf c o).running = c.running ∧ (ctrlOf c o).startCount = c.startCount := by
  cases o <;> exact ⟨rfl, rfl⟩

/-- If the proxy was told to stop first, `startedCtrl` bumps the start
counter as it launches a fresh proxy. -/
theorem startedCtrl_startCount (c : CtrlState) (h : c.running = false) :
    (startedCtrl c).startCount = c.startCount + 1 := by
  unfold startedCtrl
  simp only [h, Bool.false_eq_true, if_false]

/-- C9.  When the proxy exits without having been asked to stop, the
supervisor records the exit error and enqueues the singleton key exactly
once; the next sync (under a loadable enabled configuration with nodes
visible) returns the recorded error exactly once — publishing it as an
Error strategy, issuing no API writes, and clearing the slot — and the
sync after that starts a fresh proxy: its controller state is running with
the start counter bumped. -/
theorem c9_unexpected_exit (e : Env) (c : CtrlState) (q : List Nat) (msg : String)
    (now now2 : Int) (iss : Issuer) (s : NormSpec)
    (hrun : c.running = true)
    (hiss : e.issuer = some iss) (hspec : loadSpec iss.spec = Except.ok s)
    (hnn : e.noNodes = false)
    (hmode : ¬(s.mode = Mode.disabled ∨ (s.mode = Mode.auto ∧ e.hasControlPlane = true))) :
    (proxyExit msg c q).2 = q ++ [singletonKey] ∧
    (sync noFailures e (proxyExit msg c q).1 now).err = some msg ∧
    (sync noFailures e (proxyExit msg c q).1 now).published =
      some (errorStrategy now msg) ∧
    (sync noFailures e (proxyExit msg c q).1 now).writes = [] ∧
    (sync noFailures e (proxyExit msg c q).1 now).ctrl.errSlot = none ∧
    (sync noFailures e (proxyExit msg c q).1 now).ctrl.running = false ∧
    (sync noFailures e (sync noFailures e (proxyExit msg c q).1 now).ctrl now2).ctrl.running
      = true ∧
    (sync noFailures e (sync noFailures e (proxyExit msg c q).1 now).ctrl now2).ctrl.startCount
      = c.startCount + 1 := by
  have hpe : proxyExit msg c q =
      ({ c with running := false, errSlot := some msg }, q ++ [singletonKey]) := by
    unfold proxyExit
    simp only [hrun, if_true]
  have hfst : (proxyExit msg c q).1 = { c with running := false, errSlot := some msg } := by
    rw [hpe]
  have hq : (proxyExit msg c q).2 = q ++ [singletonKey] := by
    rw [hpe]
  have hdo2 := doSync_errSlot noFailures e { c with running := false, errSlot := some msg }
    iss now s msg hspec hnn hmode rfl
  have hchar2 := sync_char noFailures e { c with running := false, errSlot := some msg }
    now iss hiss rfl
  have hs2 : sync noFailures e { c with running := false, errSlot := some msg } now =
      ⟨setEnv e e.api
          (some ⟨iss.spec, mergeStrategies (errorStrategy now msg) iss.strategies⟩),
        { c with running := false, errSlot := none, signerProvider := none }, [],
        some msg, some (errorStrategy now msg)⟩ := by
    rw [hchar2, hdo2]
    rfl
  have hdo3 := doSync_enabled noFailures e
    { c with running := false, errSlot := none, signerProvider := none } iss now2 s
    hspec hnn hmode rfl rfl
  have hchar3 := sync_char noFailures e
    { c with running := false, errSlot := none, signerProvider := none } now2 iss hiss rfl
  have hrc := runEnabled_ctrl noFailures s e.informer e.api
    (startedCtrl { c with running := false, errSlot := none, signerProvider := none }) now2
  have h1 := ctrlOf_run
    (doSync noFailures e
      { c with running := false, errSlot := none, signerProvider := none } iss now2).ctrl
    (doSync noFailures e
      { c with running := false, errSlot := none, signerProvider := none } iss now2).out
  have hctrl3 : (sync noFailures e
      { c with running := false, errSlot := none, signerProvider := none } now2).ctrl =
      ctrlOf
        (doSync noFailures e
          { c with running := false, errSlot := none, signerProvider := none } iss now2).ctrl
        (doSync noFailures e
          { c with running := false, errSlot := none, signerProvider := none } iss now2).out := by
    rw [hchar3]
  refine ⟨hq, ?_, ?_, ?_, ?_, ?_, ?_, ?_⟩ <;> rw [hfst, hs2]
  · show (sync noFailures e
        { c with running := false, errSlot := none, signerProvider := none } now2).ctrl.running
      = true
    rw [hctrl3, h1.1, hdo3, hrc.1]
    exact startedCtrl_running _
  · show (sync noFailures e
        { c with running := false, errSlot := none, signerProvider := none }
        now2).ctrl.startCount = c.startCount + 1
    rw [hctrl3, h1.2, hdo3, hrc.2]
    exact startedCtrl_startCount _ rfl

/-- Witness for C9: the running proxy of a converged explicit-endpoint
deployment dies; the queue gains the singleton key once, the next sync
reports and clears the recorded error without writes, and the one after
restarts the proxy. -/
theorem c9_unexpected_exit_witness :
    (proxyExit "unexpected shutdown of proxy server" ⟨true, none, none, none, 1, 1⟩ []).2
      = [] ++ [singletonKey] ∧
    (sync noFailures c4Env
        (proxyExit "unexpected shutdown of proxy server" ⟨true, none, none, none, 1, 1⟩ []).1
        6).err = some "unexpected shutdown of proxy server" ∧
    (sync noFailures c4Env
        (proxyExit "unexpected shutdown of proxy server" ⟨true, none, none, none, 1, 1⟩ []).1
        6).published = some (errorStrategy 6 "unexpected shutdown of proxy server") ∧
    (sync noFailures c4Env
        (proxyExit "unexpected shutdown of proxy server" ⟨true, none, none, none, 1, 1⟩ []).1
        6).writes = [] ∧
    (sync noFailures c4Env
        (proxyExit "unexpected shutdown of proxy server" ⟨true, none, none, none, 1, 1⟩ []).1
        6).ctrl.errSlot = none ∧
    (sync noFailures c4Env
        (proxyExit "unexpected shutdown of proxy server" ⟨true, none, none, none, 1, 1⟩ []).1
        6).ctrl.running = false ∧
    (sync noFailures c4Env
        (sync noFailures c4Env
          (proxyExit "unexpected shutdown of proxy server" ⟨true, none, none, none, 1, 1⟩ []).1
          6).ctrl 7).ctrl.running = true ∧
    (sync noFailures c4Env
        (sync noFailures c4Env
          (proxyExit "unexpected shutdown of proxy server" ⟨true, none, none, none, 1, 1⟩ []).1
          6).ctrl 7).ctrl.startCount = (1 : Nat) + 1 :=
  c9_unexpected_exit c4Env ⟨true, none, none, none, 1, 1⟩ []
    "unexpected shutdown of proxy server" 6 7 (mkIssuer (epSpec "example.com"))
    ⟨Mode.enabled, "example.com", "example.com", ServiceKind.noService, [], ""⟩
    rfl rfl (by rfl) rfl (of_decide_eq_true rfl)

/-- C5 (amended).  From a converged environment (informer caches agreeing
with the API) with no recorded proxy-exit error, running a second
fault-free reconcile right after the first — informers having absorbed the
first reconcile's writes and nothing else having changed — issues no API
writes and publishes the same strategy again. -/
theorem c5_idempotent (e : Env) (c : CtrlState) (now : Int)
    (hconv : e.informer = e.api) (hslot : c.errSlot = none) :
    (sync noFailures (converge (sync noFailures e c now)) (sync noFailures e c now).ctrl
        now).writes = [] ∧
    (sync noFailures (converge (sync noFailures e c now)) (sync noFailures e c now).ctrl
        now).published = (sync noFailures e c now).published := by
  cases hiss : e.issuer with
  | none =>
    have h1 := sync_noIssuer noFailures e c now hiss
    have h2 : (converge (sync noFailures e c now)).issuer = none := by
      rw [h1]
      exact hiss
    have h3 := sync_noIssuer noFailures (converge (sync noFailures e c now))
      (sync noFailures e c now).ctrl now h2
    rw [h3, h1]
    exact ⟨rfl, rfl⟩
  | some iss =>
    have hchar := sync_char noFailures e c now iss hiss rfl
    have hiss2 : (converge (sync noFailures e c now)).issuer =
        some ⟨iss.spec,
          mergeStrategies (strategyOf now (doSync noFailures e c iss now).out)
            iss.strategies⟩ := by
      rw [hchar]
      rfl
    have hnn3 : (converge (sync noFailures e c now)).noNodes = e.noNodes := by
      rw [hchar]
      rfl
    have hcp3 : (converge (sync noFailures e c now)).hasControlPlane = e.hasControlPlane := by
      rw [hchar]
      rfl
    have hinf3 : (converge (sync noFailures e c now)).informer =
        (doSync noFailures e c iss now).api := by
      rw [hchar]
      rfl
    have hapi3 : (converge (sync noFailures e c now)).api =
        (doSync noFailures e c iss now).api := by
      rw [hchar]
      rfl
    have hslot3 : ((sync noFailures e c now).ctrl).errSlot =
        (doSync noFailures e c iss now).ctrl.errSlot := by
      rw [hchar]
      exact ctrlOf_errSlot _ _
    have hpub1 : (sync noFailures e c now).published =
        some (strategyOf now (doSync noFailures e c iss now).out) := by
      rw [hchar]
    cases hspec : loadSpec iss.spec with
    | error m =>
      have hdo1 := doSync_specError noFailures e c iss now m hspec
      simp only [hdo1] at hiss2
      have hdo3 := doSync_specError noFailures (converge (sync noFailures e c now))
        ((sync noFailures e c now).ctrl)
        ⟨iss.spec, mergeStrategies (strategyOf now (Except.error m)) iss.strategies⟩
        now m hspec
      obtain ⟨hw, hp⟩ := sync_of_doSync noFailures (converge (sync noFailures e c now))
        ((sync noFailures e c now).ctrl) now _ _ _ _ _ hiss2 rfl hdo3
      refine ⟨hw, ?_⟩
      rw [hp, hpub1]
      simp only [hdo1]
    | ok s =>
      cases hnn : e.noNodes with
      | true =>
        have hdo1 := doSync_noNodes noFailures e c iss now s hspec hnn
        simp only [hdo1] at hiss2
        have hdo3 := doSync_noNodes noFailures (converge (sync noFailures e c now))
          ((sync noFailures e c now).ctrl)
          ⟨iss.spec,
            mergeStrategies (strategyOf now (Except.error "no nodes found"))
              iss.strategies⟩
          now s hspec (hnn3.trans hnn)
        obtain ⟨hw, hp⟩ := sync_of_doSync noFailures (converge (sync noFailures e c now))
          ((sync noFailures e c now).ctrl) now _ _ _ _ _ hiss2 rfl hdo3
        refine ⟨hw, ?_⟩
        rw [hp, hpub1]
        simp only [hdo1]
      | false =>
        by_cases hmode : (s.mode = Mode.disabled ∨ (s.mode = Mode.auto ∧ e.hasControlPlane = true))
        · rcases runTeardown_eq (decide (s.mode = Mode.auto)) e.informer e.api c now
            with ⟨w, hrt⟩
          have hdo1 : doSync noFailures e c iss now =
              ⟨teardownKube e.informer e.api, stoppedCtrl c, w,
                Except.ok (disabledStrategy now (decide (s.mode = Mode.auto)))⟩ :=
            (doSync_disabled noFailures e c iss now s hspec hnn hmode).trans hrt
          simp only [hdo1] at hiss2 hinf3 hapi3
          have hl2 : (teardownKube e.informer e.api).lbSvc = none := by
            unfold teardownKube
            rw [hconv]
            exact if_isSome_none _
          have hc2k : (teardownKube e.informer e.api).cipSvc = none := by
            unfold teardownKube
            rw [hconv]
            exact if_isSome_none _
          have ht2k : (teardownKube e.informer e.api).tlsSecret = none := by
            unfold teardownKube
            rw [hconv]
            exact if_isSome_none _
          have hmode3 : s.mode = Mode.disabled ∨
              (s.mode = Mode.auto ∧
                (converge (sync noFailures e c now)).hasControlPlane = true) := by
            rw [hcp3]
            exact hmode
          have h2 := doSync_disabled noFailures (converge (sync noFailures e c now))
            ((sync noFailures e c now).ctrl)
            ⟨iss.spec,
              mergeStrategies
                (strategyOf now
                  (Except.ok (disabledStrategy now (decide (s.mode = Mode.auto)))))
                iss.strategies⟩
            now s hspec (hnn3.trans hnn) hmode3
          rw [hinf3, hapi3] at h2
          have h3 := runTeardown_noop (decide (s.mode = Mode.auto))
            (teardownKube e.informer e.api) (teardownKube e.informer e.api)
            ((sync noFailures e c now).ctrl) now hl2 hc2k ht2k
          have hdo3 := h2.trans h3
          obtain ⟨hw, hp⟩ := sync_of_doSync noFailures (converge (sync noFailures e c now))
            ((sync noFailures e c now).ctrl) now _ _ _ _ _ hiss2 rfl hdo3
          refine ⟨hw, ?_⟩
          rw [hp, hpub1]
          simp only [hdo1]
        · have h1 := doSync_enabled noFailures e c iss now s hspec hnn hmode hslot
            (startIf_noFailures c.running)
          rw [hconv] at h1
          rcases hsvc : ensureService noFailures s e.api e.api with ⟨a1, w1, r1s⟩
          have hr1s : r1s = none := by
            have h3 := ensureService_third s e.api e.api
            rw [hsvc] at h3
            exact h3
          subst hr1s
          have hset : svcSettled s a1.lbSvc a1.cipSvc := by
            have h3 := ensureService_settles s e.api
            rw [hsvc] at h3
            exact h3
          have hres_st : resolveEndpoint s a1 = resolveEndpoint s e.api := by
            have h3 := resolveEndpoint_stable s e.api
            rw [hsvc] at h3
            exact h3
          have ha1ca : a1.caSecret = e.api.caSecret := by
            have h3 := ensureService_caSecret noFailures s e.api e.api
            rw [hsvc] at h3
            exact h3
          have ha1tls : a1.tlsSecret = e.api.tlsSecret := by
            have h3 := ensureService_tlsSecret noFailures s e.api e.api
            rw [hsvc] at h3
            exact h3
          have ha1sig : a1.signerSecret = e.api.signerSecret := by
            have h3 := ensureService_signerSecret noFailures s e.api e.api
            rw [hsvc] at h3
            exact h3
          have hsvc2a : ensureService noFailures s a1 a1 = (a1, [], none) :=
            ensureService_settled s a1 hset
          have hmode3 : ¬(s.mode = Mode.disabled ∨
              (s.mode = Mode.auto ∧
                (converge (sync noFailures e c now)).hasControlPlane = true)) := by
            rw [hcp3]
            exact hmode
          cases hres : resolveEndpoint s e.api with
          | invalid m =>
            have hrun1 : runEnabled noFailures s e.api e.api (startedCtrl c) now =
                ⟨a1, { startedCtrl c with leafProvider := none }, w1, Except.error m⟩ := by
              unfold runEnabled
              simp only [hsvc, hres]
            have hdo1 := h1.trans hrun1
            simp only [hdo1] at hiss2 hinf3 hapi3 hslot3
            have hslot4 : ((sync noFailures e c now).ctrl).errSlot = none := by
              rw [hslot3]
              simp only [startedCtrl_errSlot, hslot]
            have h2 := doSync_enabled noFailures (converge (sync noFailures e c now))
              ((sync noFailures e c now).ctrl)
              ⟨iss.spec, mergeStrategies (strategyOf now (Except.error m)) iss.strategies⟩
              now s hspec (hnn3.trans hnn) hmode3 hslot4 (startIf_noFailures _)
            rw [hinf3, hapi3] at h2
            have hres2 : resolveEndpoint s a1 = ResolveRes.invalid m := hres_st.trans hres
            have hrun2 : runEnabled noFailures s a1 a1
                (startedCtrl ((sync noFailures e c now).ctrl)) now =
                ⟨a1, { startedCtrl ((sync noFailures e c now).ctrl) with
                    leafProvider := none }, [], Except.error m⟩ := by
              unfold runEnabled
              simp only [hsvc2a, hres2]
            have hdo3 := h2.trans hrun2
            obtain ⟨hw, hp⟩ := sync_of_doSync noFailures (converge (sync noFailures e c now))
              ((sync noFailures e c now).ctrl) now _ _ _ _ _ hiss2 rfl hdo3
            refine ⟨hw, ?_⟩
            rw [hp, hpub1]
            simp only [hdo1]
          | pending =>
            rcases hca : ensureCA noFailures e.api a1 (startedCtrl c) now
              with ⟨a2, cc2, wc2, rca⟩
            cases rca with
            | error mca =>
              obtain ⟨ha2, hcc2, hwc2, hmc, d, hd, hdw⟩ :=
                ensureCA_error_char e.api a1 (startedCtrl c) now a2 cc2 wc2 mca hca
              rw [ha2, hcc2, hwc2, hmc] at hca
              have hrun1 : runEnabled noFailures s e.api e.api (startedCtrl c) now =
                  ⟨a1, startedCtrl c, w1 ++ [],
                    Except.error
                      "could not load CA: tls: failed to find any PEM data in certificate input"⟩ := by
                unfold runEnabled
                simp only [hsvc, hres, hca]
              have hdo1 := h1.trans hrun1
              simp only [hdo1] at hiss2 hinf3 hapi3 hslot3
              have hslot4 : ((sync noFailures e c now).ctrl).errSlot = none := by
                rw [hslot3]
                simp only [startedCtrl_errSlot, hslot]
              have h2 := doSync_enabled noFailures (converge (sync noFailures e c now))
                ((sync noFailures e c now).ctrl)
                ⟨iss.spec,
                  mergeStrategies
                    (strategyOf now
                      (Except.error
                        "could not load CA: tls: failed to find any PEM data in certificate input"))
                    iss.strategies⟩
                now s hspec (hnn3.trans hnn) hmode3 hslot4 (startIf_noFailures _)
              rw [hinf3, hapi3] at h2
              have hres2 : resolveEndpoint s a1 = ResolveRes.pending := hres_st.trans hres
              have hd2 : a1.caSecret = some d := ha1ca.trans hd
              have hca2 := ensureCA_malformed noFailures a1 a1
                (startedCtrl ((sync noFailures e c now).ctrl)) now d hd2 hdw
              have hrun2 : runEnabled noFailures s a1 a1
                  (startedCtrl ((sync noFailures e c now).ctrl)) now =
                  ⟨a1, startedCtrl ((sync noFailures e c now).ctrl), [] ++ [],
                    Except.error
                      "could not load CA: tls: failed to find any PEM data in certificate input"⟩ := by
                unfold runEnabled
                simp only [hsvc2a, hres2, hca2]
              have hdo3 := h2.trans hrun2
              obtain ⟨hw, hp⟩ := sync_of_doSync noFailures
                (converge (sync noFailures e c now))
                ((sync noFailures e c now).ctrl) now _ _ _ _ _ hiss2 rfl hdo3
              refine ⟨hw.trans rfl, ?_⟩
              rw [hp, hpub1]
              simp only [hdo1]
            | ok ca =>
              rcases hdel : deleteStaleTLS noFailures e.api a2 with ⟨a3, w3, r3⟩
              have hr3 : r3 = none := by
                have h3 := deleteStaleTLS_third e.api a2
                rw [hdel] at h3
                exact h3
              subst hr3
              have hrun1 := runEnabled_pending s e.api e.api (startedCtrl c) now
                a1 w1 hsvc hres a2 cc2 wc2 ca hca a3 w3 hdel
              have hdo1 := h1.trans hrun1
              simp only [hdo1] at hiss2 hinf3 hapi3 hslot3
              have hccslot : cc2.errSlot = none := by
                have h3 := ensureCA_errSlot noFailures e.api a1 (startedCtrl c) now
                rw [hca] at h3
                exact h3.trans ((startedCtrl_errSlot c).trans hslot)
              have hslot4 : ((sync noFailures e c now).ctrl).errSlot = none := by
                rw [hslot3]
                exact hccslot
              have h2 := doSync_enabled noFailures (converge (sync noFailures e c now))
                ((sync noFailures e c now).ctrl)
                ⟨iss.spec,
                  mergeStrategies (strategyOf now (Except.ok (pendingStrategy now)))
                    iss.strategies⟩
                now s hspec (hnn3.trans hnn) hmode3 hslot4 (startIf_noFailures _)
              rw [hinf3, hapi3] at h2
              have hlb3 : a3.lbSvc = a1.lbSvc := by
                have t1 := deleteStaleTLS_lbSvc noFailures e.api a2
                rw [hdel] at t1
                have t2 := ensureCA_lbSvc noFailures e.api a1 (startedCtrl c) now
                rw [hca] at t2
                exact t1.trans t2
              have hcip3 : a3.cipSvc = a1.cipSvc := by
                have t1 := deleteStaleTLS_cipSvc noFailures e.api a2
                rw [hdel] at t1
                have t2 := ensureCA_cipSvc noFailures e.api a1 (startedCtrl c) now
                rw [hca] at t2
                exact t1.trans t2
              have hset3 : svcSettled s a3.lbSvc a3.cipSvc := by
                rw [hlb3, hcip3]
                exact hset
              have hsvc2 : ensureService noFailures s a3 a3 = (a3, [], none) :=
                ensureService_settled s a3 hset3
              have hres3 : resolveEndpoint s a3 = ResolveRes.pending := by
                rw [resolveEndpoint_congr s a3 a1 hlb3 hcip3]
                exact hres_st.trans hres
              obtain ⟨hca_a2, hcaw⟩ := ensureCA_ok_ca noFailures e.api a1
                (startedCtrl c) now a2 cc2 wc2 ca hca ha1ca.symm
              have hca3 : a3.caSecret = some ca := by
                have t1 := deleteStaleTLS_caSecret noFailures e.api a2
                rw [hdel] at t1
                exact t1.trans hca_a2
              have hca2eq := ensureCA_present noFailures a3 a3
                (startedCtrl ((sync noFailures e c now).ctrl)) now ca hca3 hcaw
              have htl : e.api.tlsSecret = a2.tlsSecret := by
                have t2 := ensureCA_tlsSecret noFailures e.api a1 (startedCtrl c) now
                rw [hca] at t2
                rw [t2, ha1tls]
              have htls3 : a3.tlsSecret = none := by
                have t1 := deleteStaleTLS_tls_none e.api a2 htl
                rw [hdel] at t1
                exact t1
              have hdel2 : deleteStaleTLS noFailures a3 a3 = (a3, [], none) :=
                deleteStaleTLS_none noFailures a3 a3 htls3
              have hrun2 := runEnabled_pending s a3 a3
                (startedCtrl ((sync noFailures e c now).ctrl)) now
                a3 [] hsvc2 hres3 a3 (startedCtrl ((sync noFailures e c now).ctrl)) []
                ca hca2eq a3 [] hdel2
              have hdo3 := h2.trans hrun2
              obtain ⟨hw, hp⟩ := sync_of_doSync noFailures
                (converge (sync noFailures e c now))
                ((sync noFailures e c now).ctrl) now _ _ _ _ _ hiss2 rfl hdo3
              refine ⟨hw.trans rfl, ?_⟩
              rw [hp, hpub1]
              simp only [hdo1]
          | endpoint url hosts =>
            rcases hca : ensureCA noFailures e.api a1 (startedCtrl c) now
              with ⟨a2, cc2, wc2, rca⟩
            cases rca with
            | error mca =>
              obtain ⟨ha2, hcc2, hwc2, hmc, d, hd, hdw⟩ :=
                ensureCA_error_char e.api a1 (startedCtrl c) now a2 cc2 wc2 mca hca
              rw [ha2, hcc2, hwc2, hmc] at hca
              have hrun1 : runEnabled noFailures s e.api e.api (startedCtrl c) now =
                  ⟨a1, startedCtrl c, w1 ++ [],
                    Except.error
                      "could not load CA: tls: failed to find any PEM data in certificate input"⟩ := by
                unfold runEnabled
                simp only [hsvc, hres, hca]
              have hdo1 := h1.trans hrun1
              simp only [hdo1] at hiss2 hinf3 hapi3 hslot3
              have hslot4 : ((sync noFailures e c now).ctrl).errSlot = none := by
                rw [hslot3]
                simp only [startedCtrl_errSlot, hslot]
              have h2 := doSync_enabled noFailures (converge (sync noFailures e c now))
                ((sync noFailures e c now).ctrl)
                ⟨iss.spec,
                  mergeStrategies
                    (strategyOf now
                      (Except.error
                        "could not load CA: tls: failed to find any PEM data in certificate input"))
                    iss.strategies⟩
                now s hspec (hnn3.trans hnn) hmode3 hslot4 (startIf_noFailures _)
              rw [hinf3, hapi3] at h2
              have hres2 : resolveEndpoint s a1 = ResolveRes.endpoint url hosts :=
                hres_st.trans hres
              have hd2 : a1.caSecret = some d := ha1ca.trans hd
              have hca2 := ensureCA_malformed noFailures a1 a1
                (startedCtrl ((sync noFailures e c now).ctrl)) now d hd2 hdw
              have hrun2 : runEnabled noFailures s a1 a1
                  (startedCtrl ((sync noFailures e c now).ctrl)) now =
                  ⟨a1, startedCtrl ((sync noFailures e c now).ctrl), [] ++ [],
                    Except.error
                      "could not load CA: tls: failed to find any PEM data in certificate input"⟩ := by
                unfold runEnabled
                simp only [hsvc2a, hres2, hca2]
              have hdo3 := h2.trans hrun2
              obtain ⟨hw, hp⟩ := sync_of_doSync noFailures
                (converge (sync noFailures e c now))
                ((sync noFailures e c now).ctrl) now _ _ _ _ _ hiss2 rfl hdo3
              refine ⟨hw.trans rfl, ?_⟩
              rw [hp, hpub1]
              simp only [hdo1]
            | ok ca =>
              rcases htls : ensureTLS noFailures ca hosts e.api a2 with ⟨a3, w3, rtls⟩
              cases rtls with
              | error mtls =>
                refine absurd ?_ (ensureTLS_no_error ca hosts e.api a2 mtls)
                rw [htls]
              | ok t =>
                obtain ⟨hca_a2, hcaw⟩ := ensureCA_ok_ca noFailures e.api a1
                  (startedCtrl c) now a2 cc2 wc2 ca hca ha1ca.symm
                have htl : e.api.tlsSecret = a2.tlsSecret := by
                  have t2 := ensureCA_tlsSecret noFailures e.api a1 (startedCtrl c) now
                  rw [hca] at t2
                  rw [t2, ha1tls]
                have hrunE := runEnabled_endpoint s e.api e.api (startedCtrl c) now
                  a1 w1 url hosts hsvc hres a2 cc2 wc2 ca hca a3 w3 t htls
                have hccslot : cc2.errSlot = none := by
                  have h3 := ensureCA_errSlot noFailures e.api a1 (startedCtrl c) now
                  rw [hca] at h3
                  exact h3.trans ((startedCtrl_errSlot c).trans hslot)
                have hlb3 : a3.lbSvc = a1.lbSvc := by
                  have t1 := ensureTLS_lbSvc noFailures ca hosts e.api a2
                  rw [htls] at t1
                  have t2 := ensureCA_lbSvc noFailures e.api a1 (startedCtrl c) now
                  rw [hca] at t2
                  exact t1.trans t2
                have hcip3 : a3.cipSvc = a1.cipSvc := by
                  have t1 := ensureTLS_cipSvc noFailures ca hosts e.api a2
                  rw [htls] at t1
                  have t2 := ensureCA_cipSvc noFailures e.api a1 (startedCtrl c) now
                  rw [hca] at t2
                  exact t1.trans t2
                have hset3 : svcSettled s a3.lbSvc a3.cipSvc := by
                  rw [hlb3, hcip3]
                  exact hset
                have hsvc2 : ensureService noFailures s a3 a3 = (a3, [], none) :=
                  ensureService_settled s a3 hset3
                have hres3 : resolveEndpoint s a3 = ResolveRes.endpoint url hosts := by
                  rw [resolveEndpoint_congr s a3 a1 hlb3 hcip3]
                  exact hres_st.trans hres
                have hca3 : a3.caSecret = some ca := by
                  have t1 := ensureTLS_caSecret noFailures ca hosts e.api a2
                  rw [htls] at t1
                  exact t1.trans hca_a2
                obtain ⟨tv, htv, htvval⟩ := ensureTLS_ok_valid noFailures ca hosts
                  e.api a2 a3 w3 t htls htl
                have htls2 := ensureTLS_keep noFailures ca hosts a3 a3 tv htv htvval
                have hsig3 : a3.signerSecret = e.api.signerSecret := by
                  have t1 := ensureTLS_signerSecret noFailures ca hosts e.api a2
                  rw [htls] at t1
                  have t2 := ensureCA_signerSecret noFailures e.api a1 (startedCtrl c) now
                  rw [hca] at t2
                  exact t1.trans (t2.trans ha1sig)
                have hsigc : loadSigner a3 = loadSigner e.api :=
                  loadSigner_congr a3 e.api hsig3
                cases hsig : loadSigner e.api with
                | error msig =>
                  have hrun1 : runEnabled noFailures s e.api e.api (startedCtrl c) now =
                      ⟨a3, { cc2 with leafProvider := some t, signerProvider := none },
                        w1 ++ wc2 ++ w3, Except.error msig⟩ := by
                    rw [hrunE]
                    simp only [hsig]
                  have hdo1 := h1.trans hrun1
                  simp only [hdo1] at hiss2 hinf3 hapi3 hslot3
                  have hslot4 : ((sync noFailures e c now).ctrl).errSlot = none := by
                    rw [hslot3]
                    exact hccslot
                  have h2 := doSync_enabled noFailures (converge (sync noFailures e c now))
                    ((sync noFailures e c now).ctrl)
                    ⟨iss.spec,
                      mergeStrategies (strategyOf now (Except.error msig)) iss.strategies⟩
                    now s hspec (hnn3.trans hnn) hmode3 hslot4 (startIf_noFailures _)
                  rw [hinf3, hapi3] at h2
                  have hca2eq := ensureCA_present noFailures a3 a3
                    (startedCtrl ((sync noFailures e c now).ctrl)) now ca hca3 hcaw
                  have hrun2 : runEnabled noFailures s a3 a3
                      (startedCtrl ((sync noFailures e c now).ctrl)) now =
                      ⟨a3, { startedCtrl ((sync noFailures e c now).ctrl) with
                          leafProvider := some tv, signerProvider := none },
                        [] ++ [] ++ [], Except.error msig⟩ := by
                    unfold runEnabled
                    simp only [hsvc2, hres3, hca2eq, htls2, hsigc, hsig]
                  have hdo3 := h2.trans hrun2
                  obtain ⟨hw, hp⟩ := sync_of_doSync noFailures
                    (converge (sync noFailures e c now))
                    ((sync noFailures e c now).ctrl) now _ _ _ _ _ hiss2 rfl hdo3
                  refine ⟨hw.trans rfl, ?_⟩
                  rw [hp, hpub1]
                  simp only [hdo1]
                | ok pr =>
                  have hrun1 : runEnabled noFailures s e.api e.api (startedCtrl c) now =
                      ⟨a3, { cc2 with leafProvider := some t, signerProvider := some pr },
                        w1 ++ wc2 ++ w3,
                        Except.ok (successStrategy now url ca.matId)⟩ := by
                    rw [hrunE]
                    simp only [hsig]
                  have hdo1 := h1.trans hrun1
                  simp only [hdo1] at hiss2 hinf3 hapi3 hslot3
                  have hslot4 : ((sync noFailures e c now).ctrl).errSlot = none := by
                    rw [hslot3]
                    exact hccslot
                  have h2 := doSync_enabled noFailures (converge (sync noFailures e c now))
                    ((sync noFailures e c now).ctrl)
                    ⟨iss.spec,
                      mergeStrategies
                        (strategyOf now (Except.ok (successStrategy now url ca.matId)))
                        iss.strategies⟩
                    now s hspec (hnn3.trans hnn) hmode3 hslot4 (startIf_noFailures _)
                  rw [hinf3, hapi3] at h2
                  have hca2eq := ensureCA_present noFailures a3 a3
                    (startedCtrl ((sync noFailures e c now).ctrl)) now ca hca3 hcaw
                  have hrun2 : runEnabled noFailures s a3 a3
                      (startedCtrl ((sync noFailures e c now).ctrl)) now =
                      ⟨a3, { startedCtrl ((sync noFailures e c now).ctrl) with
                          leafProvider := some tv, signerProvider := some pr },
                        [] ++ [] ++ [],
                        Except.ok (successStrategy now url ca.matId)⟩ := by
                    unfold runEnabled
                    simp only [hsvc2, hres3, hca2eq, htls2, hsigc, hsig]
                  have hdo3 := h2.trans hrun2
                  obtain ⟨hw, hp⟩ := sync_of_doSync noFailures
                    (converge (sync noFailures e c now))
                    ((sync noFailures e c now).ctrl) now _ _ _ _ _ hiss2 rfl hdo3
                  refine ⟨hw.trans rfl, ?_⟩
                  rw [hp, hpub1]
                  simp only [hdo1]

/-- Controller state right after the supervisor recorded an unexpected
proxy exit (one-shot error slot filled, proxy stopped). -/
def c5Ctrl : CtrlState :=
  ⟨false, some "unexpected shutdown of proxy server", none, none, 0, 1⟩

/-- A converged ClusterIP environment for the C5 scenario. -/
def c5Env : Env := mkEnv signerKube false cipSpec

/-- C5 counterexample.  A sync that merely reports a recorded proxy-exit
error writes nothing and changes no watched object, yet the next sync
(same clock) both issues API writes and publishes a different strategy —
so the two-reconciles property fails without the no-pending-exit-error
hypothesis. -/
theorem c5_counterexample :
    (sync noFailures c5Env c5Ctrl 6).writes = [] ∧
    (sync noFailures c5Env c5Ctrl 6).env.api = c5Env.api ∧
    (sync noFailures c5Env c5Ctrl 6).env.informer = c5Env.informer ∧
    (sync noFailures c5Env c5Ctrl 6).published =
      some (errorStrategy 6 "unexpected shutdown of proxy server") ∧
    ¬((sync noFailures (sync noFailures c5Env c5Ctrl 6).env
          (sync noFailures c5Env c5Ctrl 6).ctrl 6).writes = [] ∧
      (sync noFailures (sync noFailures c5Env c5Ctrl 6).env
          (sync noFailures c5Env c5Ctrl 6).ctrl 6).published =
        (sync noFailures c5Env c5Ctrl 6).published) :=
  ⟨by rfl, by rfl, by rfl, by rfl, by decide⟩

/-- A converged ClusterIP environment used to witness the amended
idempotence property. -/
def c5ConvEnv : Env := mkEnv signerKube false cipSpec

/-- Witness for C5 (amended): on a concrete converged deployment with no
recorded exit error, the reconcile following a reconcile is write-free and
republishes the same strategy. -/
theorem c5_idempotent_witness :
    (sync noFailures (converge (sync noFailures c5ConvEnv idleCtrl 5))
        (sync noFailures c5ConvEnv idleCtrl 5).ctrl 5).writes = [] ∧
    (sync noFailures (converge (sync noFailures c5ConvEnv idleCtrl 5))
        (sync noFailures c5ConvEnv idleCtrl 5).ctrl 5).published =
      (sync noFailures c5ConvEnv idleCtrl 5).published :=
  c5_idempotent c5ConvEnv idleCtrl 5 rfl rfl

end ImpersonatorConfig
